import Mathlib

/-!
The stats client of edgemax_exporter and its collectors.

A shallow embedding of `edgemax/websocket.go`, `edgemax/client.go`, `edgemax/stat.go`
and of the three collectors, followed by the properties established about them.

Conventions of the embedding:

* a Go `string` or `[]byte` is the list of its bytes (`GoString`), every byte below 256;
* a Go `int` is an `Int` (64-bit platform: `strconv.Atoi` clamps to the int64 range);
* a Go map is the list of its entries with pairwise distinct keys, in the order in which
  one `range` loop visits them; a statement quantified over the list covers every
  iteration order;
* a call that returns an `error` and writes through a pointer is a function from the
  old target to an `Outcome` (the error, if any, and the new target);
* a run-time panic is the `panicked` case of `Exec`.
-/

namespace Edgemax

/-! ## Go values -/

/-- A Go byte string. -/
abbrev GoString := List Nat

/-- The bytes of an ASCII literal. -/
def ascii (s : String) : GoString := s.data.map Char.toNat

/-- Every element is a byte. -/
def IsBytes (s : GoString) : Prop := ∀ b ∈ s, b < 256

/-- Result of a call `f(..., &target) error`. -/
structure Outcome (ε τ : Type) where
  err : Option ε
  target : τ
  deriving DecidableEq, Repr

/-- Why a goroutine panicked. -/
inductive Panic where
  | indexOutOfRange
  | closeOfClosedChannel
  | invalidLabelValue
  deriving DecidableEq, Repr

/-- Execution of a Go function that may panic. -/
inductive Exec (α : Type) where
  | returned (a : α)
  | panicked (p : Panic)
  deriving DecidableEq, Repr

/-! ## `strconv.Itoa`, `bytes.SplitN`, `strings.Split` -/

/-- Decimal digits of `n`, most significant first, pushed in front of `acc`
(the digit loop of `strconv.formatBits` for base 10). -/
def formatBits : Nat → Nat → GoString → GoString
  | 0, _, acc => acc
  | fuel + 1, n, acc =>
    if n < 10 then (48 + n) :: acc
    else formatBits fuel (n / 10) ((48 + n % 10) :: acc)

/-- Model of `strconv.Itoa`. -/
def Itoa (i : Int) : GoString :=
  if i < 0 then 45 :: formatBits (i.natAbs + 1) i.natAbs []
  else formatBits (i.natAbs + 1) i.natAbs []

/-- Model of `bytes.IndexByte`: position of the first occurrence of `c`. -/
def IndexByte : GoString → Nat → Option Nat
  | [], _ => none
  | b :: rest, c => if b = c then some 0 else (IndexByte rest c).map (· + 1)

/-- Model of `bytes.Count` for a one-byte separator. -/
def Count : GoString → Nat → Nat
  | [], _ => 0
  | b :: rest, c => (if b = c then 1 else 0) + Count rest c

/-- The loop of `genSplit` (package `bytes`/`strings`) for a one-byte separator;
the first argument is the number of cuts still allowed (`n - 1` on entry). -/
def genSplit (sep : Nat) : Nat → GoString → List GoString
  | 0, s => [s]
  | k + 1, s =>
    match IndexByte s sep with
    | none => [s]
    | some m => s.take m :: genSplit sep k (s.drop (m + 1))

/-- Model of `bytes.SplitN(s, []byte{sep}, n)` for `n ≥ 0`. -/
def SplitN (s : GoString) (sep : Nat) (n : Nat) : List GoString :=
  if n = 0 then []
  else genSplit sep (min n (s.length + 1) - 1) s

/-- Model of `strings.Split(s, string(sep))`: `genSplit` with `n = Count + 1`. -/
def Split (s : GoString) (sep : Nat) : List GoString :=
  SplitN s sep (Count s sep + 1)

/-! ## `edgemax/websocket.go` -/

/-- The Go struct `stat`. -/
structure stat where
  Name : GoString
  deriving DecidableEq, Repr

/-- The Go struct `connectRequest`; a slice is `none` when nil. -/
structure connectRequest where
  Subscribe : Option (List stat)
  Unsubscribe : Option (List stat)
  SessionID : GoString
  deriving DecidableEq, Repr

/-- Errors returned by `unmarshalWS`: its own framing error, built by `fmt.Errorf`
from the element count, or whatever `json.Unmarshal` returned. -/
inductive WSError (ε : Type) where
  | elements (l : Nat)
  | decode (e : ε)
  deriving DecidableEq, Repr

/-- The text of the error (`err.Error()`). -/
def WSError.Error {ε : Type} (render : ε → GoString) : WSError ε → GoString
  | .elements l => ascii "incorrect number of elements in websocket message: " ++ Itoa l
  | .decode e => render e

/-- An outcome of `json.Unmarshal` seen as an outcome of `unmarshalWS`. -/
def Outcome.decode {ε τ : Type} (o : Outcome ε τ) : Outcome (WSError ε) τ :=
  ⟨o.err.map WSError.decode, o.target⟩

/-- Model of `marshalWS`; `jsonMarshal` is `json.Marshal` at the type of `v`. -/
def marshalWS {α ε : Type} (jsonMarshal : α → Except ε GoString) (v : α) : GoString :=
  match jsonMarshal v with
  | .error _ => []
  | .ok b => (Itoa b.length ++ [10]) ++ b

/-- Model of `unmarshalWS`; `jsonUnmarshal` is `json.Unmarshal` at the type of `v`. -/
def unmarshalWS {ε τ : Type} (jsonUnmarshal : GoString → τ → Outcome ε τ)
    (data : GoString) (v : τ) : Exec (Outcome (WSError ε) τ) :=
  match data with
  | [] => .panicked .indexOutOfRange
  | d0 :: _ =>
    if d0 = 123 then .returned (jsonUnmarshal data v).decode
    else
      let bb := SplitN data 10 2
      if bb.length ≠ 2 then .returned ⟨some (.elements bb.length), v⟩
      else
        let bb1 := bb.getD 1 []
        if bb1.length = 0 then .returned ⟨none, v⟩
        else .returned (jsonUnmarshal bb1 v).decode

/-! ## `unicode/utf8`, `unicode/utf16` -/

/-- The rune `utf8.RuneError` (U+FFFD). -/
def RuneError : Nat := 0xFFFD

/-- The entry of `utf8.first` for a lead byte: `0xF0` marks ASCII, `0xF1` an invalid
lead byte, otherwise the low three bits give the size and the high four the index into
`acceptRanges`. -/
def first (b : Nat) : Nat :=
  if b < 0x80 then 0xF0
  else if b < 0xC2 then 0xF1
  else if b < 0xE0 then 0x02
  else if b = 0xE0 then 0x13
  else if b < 0xED then 0x03
  else if b = 0xED then 0x23
  else if b < 0xF0 then 0x03
  else if b = 0xF0 then 0x34
  else if b < 0xF4 then 0x04
  else if b = 0xF4 then 0x44
  else 0xF1

/-- The table `utf8.acceptRanges`: the bounds `lo`, `hi` for the second byte. -/
def acceptRanges (i : Nat) : Nat × Nat :=
  if i = 0 then (0x80, 0xBF)
  else if i = 1 then (0xA0, 0xBF)
  else if i = 2 then (0x80, 0x9F)
  else if i = 3 then (0x90, 0xBF)
  else if i = 4 then (0x80, 0x8F)
  else (0, 0)

/-- Model of `utf8.DecodeRune` / `utf8.DecodeRuneInString`: the rune and its width.
The masks and shifts of the source are written with `%`, `*` and `+`. -/
def DecodeRune (s : GoString) : Nat × Nat :=
  let n := s.length
  if n < 1 then (RuneError, 0)
  else
    let s0 := s.getD 0 0
    let x := first s0
    if x ≥ 0xF0 then (if x = 0xF0 then (s0, 1) else (RuneError, 1))
    else
      let sz := x % 8
      let accept := acceptRanges (x / 16)
      if n < sz then (RuneError, 1)
      else
        let s1 := s.getD 1 0
        if s1 < accept.1 ∨ accept.2 < s1 then (RuneError, 1)
        else if sz ≤ 2 then ((s0 % 32) * 64 + s1 % 64, 2)
        else
          let s2 := s.getD 2 0
          if s2 < 0x80 ∨ 0xBF < s2 then (RuneError, 1)
          else if sz ≤ 3 then ((s0 % 16) * 4096 + (s1 % 64) * 64 + s2 % 64, 3)
          else
            let s3 := s.getD 3 0
            if s3 < 0x80 ∨ 0xBF < s3 then (RuneError, 1)
            else ((s0 % 8) * 262144 + (s1 % 64) * 4096 + (s2 % 64) * 64 + s3 % 64, 4)

/-- Model of `utf8.AppendRune(nil, r)` for a non-negative rune. -/
def EncodeRune (r : Nat) : GoString :=
  if r ≤ 0x7F then [r]
  else if r ≤ 0x7FF then [0xC0 + r / 64, 0x80 + r % 64]
  else if 0x10FFFF < r ∨ (0xD800 ≤ r ∧ r ≤ 0xDFFF) then [0xEF, 0xBF, 0xBD]
  else if r ≤ 0xFFFF then [0xE0 + r / 4096, 0x80 + (r / 64) % 64, 0x80 + r % 64]
  else [0xF0 + r / 262144, 0x80 + (r / 4096) % 64, 0x80 + (r / 64) % 64, 0x80 + r % 64]

/-- Model of `utf8.Valid`; the first argument bounds the number of runes. -/
def utf8Valid : Nat → GoString → Bool
  | _, [] => true
  | 0, _ :: _ => false
  | fuel + 1, b :: rest =>
    if b < 0x80 then utf8Valid fuel rest
    else
      let size := (DecodeRune (b :: rest)).2
      if size = 1 then false else utf8Valid fuel (rest.drop (size - 1))

/-- The string is well-formed UTF-8 (`utf8.ValidString`). -/
def ValidUTF8 (s : GoString) : Prop := utf8Valid s.length s = true

instance (s : GoString) : Decidable (ValidUTF8 s) := by
  unfold ValidUTF8; infer_instance

/-! ## `encoding/json`: encoding a `connectRequest` -/

/-- The digit `hex[n]` of `"0123456789abcdef"`. -/
def hex (n : Nat) : Nat := if n < 10 then 48 + n else 87 + n

/-- The table `htmlSafeSet`: ASCII bytes written as they are inside a JSON string. -/
def htmlSafeSet (b : Nat) : Bool :=
  decide (0x20 ≤ b ∧ b < 0x80 ∧ b ≠ 34 ∧ b ≠ 38 ∧ b ≠ 60 ∧ b ≠ 62 ∧ b ≠ 92)

/-- What `encodeState.string` writes for an ASCII byte outside `htmlSafeSet`. -/
def escapeByte (b : Nat) : GoString :=
  if b = 92 ∨ b = 34 then [92, b]
  else if b = 10 then [92, 110]
  else if b = 13 then [92, 114]
  else if b = 9 then [92, 116]
  else [92, 117, 48, 48, hex (b / 16), hex (b % 16)]

/-- The loop of `encodeState.string` (with `escapeHTML`): the text between the quotes.
The first argument bounds the number of iterations. -/
def appendString : Nat → GoString → GoString
  | _, [] => []
  | 0, _ :: _ => []
  | fuel + 1, b :: rest =>
    if b < 0x80 then
      (if htmlSafeSet b then [b] else escapeByte b) ++ appendString fuel rest
    else
      let (c, size) := DecodeRune (b :: rest)
      if c = RuneError ∧ size = 1 then
        [92, 117, 102, 102, 102, 100] ++ appendString fuel rest
      else if c = 0x2028 ∨ c = 0x2029 then
        [92, 117, 50, 48, 50, hex (c % 16)] ++ appendString fuel (rest.drop (size - 1))
      else
        (b :: rest).take size ++ appendString fuel (rest.drop (size - 1))

/-- Model of the JSON encoding of a Go string. -/
def encodeString (s : GoString) : GoString :=
  34 :: (appendString s.length s ++ [34])

/-- JSON encoding of a `stat`. -/
def encodeStat (st : stat) : GoString :=
  ascii "\x7b\"name\":" ++ encodeString st.Name ++ [125]

/-- The elements of an array, comma separated. -/
def encodeElems : List stat → GoString
  | [] => []
  | [st] => encodeStat st
  | st :: st2 :: sts => encodeStat st ++ 44 :: encodeElems (st2 :: sts)

/-- JSON encoding of a `[]stat`: `null` for the nil slice. -/
def encodeStats : Option (List stat) → GoString
  | none => ascii "null"
  | some sts => 91 :: (encodeElems sts ++ [93])

/-- Errors of `encoding/json`. -/
inductive JsonError where
  | syntaxError
  | unmarshalType
  deriving DecidableEq, Repr

/-- Model of `json.Marshal` at type `connectRequest`; it never fails. -/
def jsonMarshalConnectRequest (cr : connectRequest) : Except JsonError GoString :=
  .ok (ascii "\x7b\"SUBSCRIBE\":" ++ encodeStats cr.Subscribe ++
    ascii ",\"UNSUBSCRIBE\":" ++ encodeStats cr.Unsubscribe ++
    ascii ",\"SESSION_ID\":" ++ encodeString cr.SessionID ++ [125])

/-- Lead byte and continuation bytes of a two-byte rune. -/
def Two (b s1 : Nat) : Prop := 0xC2 ≤ b ∧ b ≤ 0xDF ∧ 0x80 ≤ s1 ∧ s1 ≤ 0xBF

/-- Lead byte and continuation bytes of a three-byte rune. -/
def Three (b s1 s2 : Nat) : Prop :=
  0xE0 ≤ b ∧ b ≤ 0xEF ∧ (if b = 0xE0 then 0xA0 else 0x80) ≤ s1 ∧
    s1 ≤ (if b = 0xED then 0x9F else 0xBF) ∧ 0x80 ≤ s2 ∧ s2 ≤ 0xBF

/-- Lead byte and continuation bytes of a four-byte rune. -/
def Four (b s1 s2 s3 : Nat) : Prop :=
  0xF0 ≤ b ∧ b ≤ 0xF4 ∧ (if b = 0xF0 then 0x90 else 0x80) ≤ s1 ∧
    s1 ≤ (if b = 0xF4 then 0x8F else 0xBF) ∧ 0x80 ≤ s2 ∧ s2 ≤ 0xBF ∧ 0x80 ≤ s3 ∧ s3 ≤ 0xBF


/-! ## `encoding/json`: decoding -/

/-- A JSON document as the scanner of `encoding/json` delimits it. String literals are
kept unquoted, number literals as written. -/
inductive JSON where
  | null
  | bool (b : Bool)
  | number (lit : GoString)
  | string (s : GoString)
  | array (elems : List JSON)
  | object (members : List (GoString × JSON))

/-- The JSON white space: space, tab, carriage return, line feed. -/
def isSpace (c : Nat) : Bool := decide (c = 32 ∨ c = 9 ∨ c = 13 ∨ c = 10)

/-- Drops leading white space. -/
def skipWS : GoString → GoString
  | [] => []
  | c :: rest => if isSpace c then skipWS rest else c :: rest

/-- Value of a hexadecimal digit. -/
def hexVal (c : Nat) : Option Nat :=
  if 48 ≤ c ∧ c ≤ 57 then some (c - 48)
  else if 97 ≤ c ∧ c ≤ 102 then some (c - 87)
  else if 65 ≤ c ∧ c ≤ 70 then some (c - 55)
  else none

/-- Model of `getu4`: the code unit of a leading `\uXXXX` escape, `none` for `-1`. -/
def getu4 (s : GoString) : Option Nat :=
  match s with
  | e :: u :: a :: b :: c :: d :: _ =>
    if e = 92 ∧ u = 117 then
      match hexVal a, hexVal b, hexVal c, hexVal d with
      | some a, some b, some c, some d => some (a * 4096 + b * 256 + c * 16 + d)
      | _, _, _, _ => none
    else none
  | _ => none

/-- Model of `utf16.IsSurrogate`. -/
def isSurrogate (r : Nat) : Bool := decide (0xD800 ≤ r ∧ r < 0xE000)

/-- Model of `utf16.DecodeRune`, the second unit being `none` when `getu4` gave `-1`. -/
def utf16DecodeRune (r1 : Nat) (r2 : Option Nat) : Nat :=
  match r2 with
  | some r2 =>
    if 0xD800 ≤ r1 ∧ r1 < 0xDC00 ∧ 0xDC00 ≤ r2 ∧ r2 < 0xE000 then
      (r1 - 0xD800) * 1024 + (r2 - 0xDC00) + 0x10000
    else RuneError
  | none => RuneError

/-- The byte a one-letter escape stands for. -/
def unescape (e : Nat) : Option Nat :=
  if e = 34 ∨ e = 92 ∨ e = 47 then some e
  else if e = 98 then some 8
  else if e = 102 then some 12
  else if e = 110 then some 10
  else if e = 114 then some 13
  else if e = 116 then some 9
  else none

/-- Puts `p` in front of the text of a parsed string. -/
def prepend (p : GoString) (o : Option (GoString × GoString)) : Option (GoString × GoString) :=
  o.map (fun sr => (p ++ sr.1, sr.2))

/-- Reads a string literal after its opening quote, as the scanner and `unquote` do
together: the unquoted text, coerced to well-formed UTF-8, and the input after the
closing quote. The first argument bounds the number of iterations. -/
def unquote : Nat → GoString → Option (GoString × GoString)
  | 0, _ => none
  | _ + 1, [] => none
  | fuel + 1, c :: rest =>
    if c = 34 then some ([], rest)
    else if c = 92 then
      match rest with
      | [] => none
      | e :: rest1 =>
        if e = 117 then
          match getu4 (c :: rest) with
          | none => none
          | some rr =>
            let rest2 := rest1.drop 4
            if isSurrogate rr then
              let dec := utf16DecodeRune rr (getu4 rest2)
              if dec ≠ RuneError then prepend (EncodeRune dec) (unquote fuel (rest2.drop 6))
              else prepend (EncodeRune RuneError) (unquote fuel rest2)
            else prepend (EncodeRune rr) (unquote fuel rest2)
        else
          match unescape e with
          | none => none
          | some b => prepend [b] (unquote fuel rest1)
    else if c < 32 then none
    else if c < 0x80 then prepend [c] (unquote fuel rest)
    else
      let (rr, size) := DecodeRune (c :: rest)
      prepend (EncodeRune rr) (unquote fuel (rest.drop (size - 1)))

/-- A decimal digit. -/
def isDigit (c : Nat) : Bool := decide (48 ≤ c ∧ c ≤ 57)

/-- Drops leading digits. -/
def skipDigits : GoString → GoString
  | [] => []
  | c :: rest => if isDigit c then skipDigits rest else c :: rest

/-- The exponent part of a number, if any: the input after it. -/
def scanExponent (s : GoString) : Option GoString :=
  match s with
  | [] => some []
  | e :: r =>
    if e = 101 ∨ e = 69 then
      let r1 := match r with
        | [] => []
        | sg :: r2 => if sg = 43 ∨ sg = 45 then r2 else sg :: r2
      match r1 with
      | [] => none
      | d :: r3 => if isDigit d then some (skipDigits r3) else none
    else some (e :: r)

/-- The fraction and exponent parts of a number, if any: the input after them. -/
def scanFraction (s : GoString) : Option GoString :=
  match s with
  | [] => some []
  | p :: r =>
    if p = 46 then
      match r with
      | [] => none
      | d :: r1 => if isDigit d then scanExponent (skipDigits r1) else none
    else scanExponent (p :: r)

/-- Scans a number literal: the input after it. -/
def scanNumber (s : GoString) : Option GoString :=
  let s1 := match s with
    | [] => []
    | m :: r => if m = 45 then r else m :: r
  match s1 with
  | [] => none
  | d :: r =>
    if d = 48 then scanFraction r
    else if 49 ≤ d ∧ d ≤ 57 then scanFraction (skipDigits r)
    else none

/-- Strips the literal `lit` from the front of the input. -/
def scanLiteral (lit : GoString) (s : GoString) : Option GoString :=
  if s.take lit.length = lit then some (s.drop lit.length) else none

/-- The elements of a non-empty array, the input standing at the first element;
`pv` reads one value. The first argument bounds the number of elements. -/
def parseElements (pv : GoString → Option (JSON × GoString)) :
    Nat → GoString → Option (List JSON × GoString)
  | 0, _ => none
  | k + 1, s =>
    match pv s with
    | none => none
    | some (v, s1) =>
      match skipWS s1 with
      | [] => none
      | c :: s2 =>
        if c = 44 then
          (parseElements pv k (skipWS s2)).map (fun er => (v :: er.1, er.2))
        else if c = 93 then some ([v], s2)
        else none

/-- The members of a non-empty object, the input standing at the first key;
`pv` reads one value. The first argument bounds the number of members. -/
def parseMembers {α : Type} (pv : GoString → Option (α × GoString)) :
    Nat → GoString → Option (List (GoString × α) × GoString)
  | 0, _ => none
  | k + 1, s =>
    match s with
    | [] => none
    | q :: r =>
      if q = 34 then
        match unquote r.length r with
        | none => none
        | some (key, r1) =>
          match skipWS r1 with
          | [] => none
          | c :: r2 =>
            if c = 58 then
              match pv (skipWS r2) with
              | none => none
              | some (v, r3) =>
                match skipWS r3 with
                | [] => none
                | c2 :: r4 =>
                  if c2 = 44 then
                    (parseMembers pv k (skipWS r4)).map (fun mr => ((key, v) :: mr.1, mr.2))
                  else if c2 = 125 then some ([(key, v)], r4)
                  else none
            else none
      else none

/-- Reads one JSON value at the start of the input: the value and the input after it.
The first argument bounds the nesting depth. -/
def parseValue : Nat → GoString → Option (JSON × GoString)
  | 0, _ => none
  | _ + 1, [] => none
  | fuel + 1, c :: rest =>
    if c = 34 then (unquote rest.length rest).map (fun sr => (JSON.string sr.1, sr.2))
    else if c = 123 then
      match skipWS rest with
      | [] => none
      | c1 :: r1 =>
        if c1 = 125 then some (JSON.object [], r1)
        else (parseMembers (parseValue fuel) (c1 :: r1).length (c1 :: r1)).map
          (fun mr => (JSON.object mr.1, mr.2))
    else if c = 91 then
      match skipWS rest with
      | [] => none
      | c1 :: r1 =>
        if c1 = 93 then some (JSON.array [], r1)
        else (parseElements (parseValue fuel) (c1 :: r1).length (c1 :: r1)).map
          (fun er => (JSON.array er.1, er.2))
    else if c = 116 then (scanLiteral (ascii "true") (c :: rest)).map (fun r => (JSON.bool true, r))
    else if c = 102 then (scanLiteral (ascii "false") (c :: rest)).map (fun r => (JSON.bool false, r))
    else if c = 110 then (scanLiteral (ascii "null") (c :: rest)).map (fun r => (JSON.null, r))
    else if c = 45 ∨ isDigit c then
      (scanNumber (c :: rest)).map
        (fun r => (JSON.number ((c :: rest).take ((c :: rest).length - r.length)), r))
    else none

/-- The document held by `data` (`checkValid` and the scan of `decodeState`): one value
between optional white space, `none` on a syntax error. -/
def parseJSON (data : GoString) : Option JSON :=
  match parseValue (data.length + 1) (skipWS data) with
  | none => none
  | some (v, rest) => if skipWS rest = [] then some v else none

/-- Case folding of an object key for the match against field names: ASCII letters in
upper case, the Kelvin sign as `K` and the long s as `S`. -/
def foldName : GoString → GoString
  | [] => []
  | [c] => [if 97 ≤ c ∧ c ≤ 122 then c - 32 else c]
  | [c, d] =>
    if c = 0xC5 ∧ d = 0xBF then [83]
    else (if 97 ≤ c ∧ c ≤ 122 then c - 32 else c) :: foldName [d]
  | c :: d :: e :: rest =>
    if c = 0xE2 ∧ d = 0x84 ∧ e = 0xAA then 75 :: foldName rest
    else if c = 0xC5 ∧ d = 0xBF then 83 :: foldName (e :: rest)
    else (if 97 ≤ c ∧ c ≤ 122 then c - 32 else c) :: foldName (d :: e :: rest)

/-- The first error saved while decoding (`decodeState.saveError`). -/
def saveError (e1 e2 : Option JsonError) : Option JsonError :=
  match e1 with
  | some e => some e
  | none => e2

/-- Decoding of a value into a Go `string`. -/
def decodeString (j : JSON) (old : GoString) : Outcome JsonError GoString :=
  match j with
  | .string s => ⟨none, s⟩
  | .null => ⟨none, old⟩
  | _ => ⟨some .unmarshalType, old⟩

/-- Decoding of the members of an object into a `stat`, in document order. -/
def decodeStatMembers : List (GoString × JSON) → stat → Outcome JsonError stat
  | [], st => ⟨none, st⟩
  | (k, v) :: ms, st =>
    if foldName k = ascii "NAME" then
      let o := decodeString v st.Name
      let o2 := decodeStatMembers ms ⟨o.target⟩
      ⟨saveError o.err o2.err, o2.target⟩
    else decodeStatMembers ms st

/-- Decoding of a value into a `stat`. -/
def decodeStat (j : JSON) (old : stat) : Outcome JsonError stat :=
  match j with
  | .object ms => decodeStatMembers ms old
  | .null => ⟨none, old⟩
  | _ => ⟨some .unmarshalType, old⟩

/-- Decoding of the elements of an array into a slice whose old elements are `old`:
element `i` is decoded into the old element `i` when there is one, into a zero `stat`
otherwise. -/
def decodeStatElems : List JSON → List stat → Outcome JsonError (List stat)
  | [], _ => ⟨none, []⟩
  | j :: js, old =>
    let o := decodeStat j (old.headD ⟨[]⟩)
    let o2 := decodeStatElems js old.tail
    ⟨saveError o.err o2.err, o.target :: o2.target⟩

/-- Decoding of a value into a `[]stat`: `null` gives the nil slice, an array a slice
of its length. -/
def decodeStats (j : JSON) (old : Option (List stat)) : Outcome JsonError (Option (List stat)) :=
  match j with
  | .null => ⟨none, none⟩
  | .array js =>
    let o := decodeStatElems js (old.getD [])
    ⟨o.err, some o.target⟩
  | _ => ⟨some .unmarshalType, old⟩

/-- Decoding of the members of an object into a `connectRequest`, in document order;
a key that matches no field is skipped. -/
def decodeConnectRequestMembers :
    List (GoString × JSON) → connectRequest → Outcome JsonError connectRequest
  | [], cr => ⟨none, cr⟩
  | (k, v) :: ms, cr =>
    if foldName k = ascii "SUBSCRIBE" then
      let o := decodeStats v cr.Subscribe
      let o2 := decodeConnectRequestMembers ms { cr with Subscribe := o.target }
      ⟨saveError o.err o2.err, o2.target⟩
    else if foldName k = ascii "UNSUBSCRIBE" then
      let o := decodeStats v cr.Unsubscribe
      let o2 := decodeConnectRequestMembers ms { cr with Unsubscribe := o.target }
      ⟨saveError o.err o2.err, o2.target⟩
    else if foldName k = ascii "SESSION_ID" then
      let o := decodeString v cr.SessionID
      let o2 := decodeConnectRequestMembers ms { cr with SessionID := o.target }
      ⟨saveError o.err o2.err, o2.target⟩
    else decodeConnectRequestMembers ms cr

/-- Model of `json.Unmarshal` at type `*connectRequest`: a syntax error leaves the target
untouched; otherwise the document is stored into it. -/
def jsonUnmarshalConnectRequest (data : GoString) (t : connectRequest) :
    Outcome JsonError connectRequest :=
  match parseJSON data with
  | none => ⟨some .syntaxError, t⟩
  | some (.object ms) => decodeConnectRequestMembers ms t
  | some .null => ⟨none, t⟩
  | some _ => ⟨some .unmarshalType, t⟩

/-! ## The documents written for a `connectRequest` -/

/-- The JSON value that `encodeStat` writes. -/
def stat.toJSON (st : stat) : JSON :=
  JSON.object [(ascii "name", JSON.string st.Name)]

/-- The JSON value that `encodeStats` writes. -/
def statsJSON : Option (List stat) → JSON
  | none => JSON.null
  | some sts => JSON.array (sts.map stat.toJSON)

/-- The members of the object that `jsonMarshalConnectRequest` writes. -/
def connectRequest.members (cr : connectRequest) : List (GoString × JSON) :=
  [(ascii "SUBSCRIBE", statsJSON cr.Subscribe), (ascii "UNSUBSCRIBE", statsJSON cr.Unsubscribe),
    (ascii "SESSION_ID", JSON.string cr.SessionID)]

/-- The bytes that `json.Marshal` writes for a `connectRequest`. -/
def connectRequest.body (cr : connectRequest) : GoString :=
  ascii "\x7b\"SUBSCRIBE\":" ++ encodeStats cr.Subscribe ++
    ascii ",\"UNSUBSCRIBE\":" ++ encodeStats cr.Unsubscribe ++
    ascii ",\"SESSION_ID\":" ++ encodeString cr.SessionID ++ [125]

/-- Every string of the request, the topic names and the session id, is well-formed
UTF-8. -/
def connectRequest.ValidUTF8 (cr : connectRequest) : Prop :=
  (∀ st ∈ cr.Subscribe.getD [], Edgemax.ValidUTF8 st.Name) ∧
  (∀ st ∈ cr.Unsubscribe.getD [], Edgemax.ValidUTF8 st.Name) ∧
  Edgemax.ValidUTF8 cr.SessionID

instance (cr : connectRequest) : Decidable cr.ValidUTF8 := by
  unfold connectRequest.ValidUTF8; infer_instance

/-- The text `d` is the base-10 representation of `n`: digits only, no leading zero
except for zero itself, and the digits read in base ten give `n`. -/
def IsDecimalOf (d : GoString) (n : Nat) : Prop :=
  d ≠ [] ∧ (∀ c ∈ d, 48 ≤ c ∧ c ≤ 57) ∧ (d.head? = some 48 → d = [48]) ∧
    d.foldl (fun a c => 10 * a + (c - 48)) 0 = n

/-! ## The stat types (`stat.go`) and their decoding -/

/-- The Go struct `SystemStat`. -/
structure SystemStat where
  CPU : GoString
  Uptime : GoString
  Mem : GoString
  deriving DecidableEq, Repr

/-- The anonymous Go struct with the fields `RXBytes` and `TXBytes`. -/
structure Counters where
  RXBytes : GoString
  TXBytes : GoString
  deriving DecidableEq, Repr

/-- The anonymous Go struct that `InterfacesStat` maps an interface name to. -/
structure Iface where
  Mac : GoString
  Stats : Counters
  deriving DecidableEq, Repr

/-- A Go map with string keys: its entries, in the order in which `range` visits them.
The nil map and the empty map are both the empty list, the program only ranges over
its maps. -/
abbrev GoMap (β : Type) := List (GoString × β)

/-- The assignment `m[k] = v`. -/
def GoMap.set {β : Type} (m : GoMap β) (k : GoString) (v : β) : GoMap β :=
  if m.any (fun e => decide (e.1 = k)) then m.map (fun e => if e.1 = k then (k, v) else e)
  else m ++ [(k, v)]

/-- The Go type `DPIStat`: client address, then composite key, then counters. -/
abbrev DPIStat := GoMap (GoMap Counters)

/-- The Go type `InterfacesStat`. -/
abbrev InterfacesStat := GoMap Iface

/-- Decoding of the members of an object into a `SystemStat`, in document order. -/
def decodeSystemStatMembers : List (GoString × JSON) → SystemStat → Outcome JsonError SystemStat
  | [], s => ⟨none, s⟩
  | (k, v) :: ms, s =>
    if foldName k = ascii "CPU" then
      let o := decodeString v s.CPU
      let o2 := decodeSystemStatMembers ms { s with CPU := o.target }
      ⟨saveError o.err o2.err, o2.target⟩
    else if foldName k = ascii "UPTIME" then
      let o := decodeString v s.Uptime
      let o2 := decodeSystemStatMembers ms { s with Uptime := o.target }
      ⟨saveError o.err o2.err, o2.target⟩
    else if foldName k = ascii "MEM" then
      let o := decodeString v s.Mem
      let o2 := decodeSystemStatMembers ms { s with Mem := o.target }
      ⟨saveError o.err o2.err, o2.target⟩
    else decodeSystemStatMembers ms s

/-- Decoding of a value into a `SystemStat`. -/
def decodeSystemStat (j : JSON) (old : SystemStat) : Outcome JsonError SystemStat :=
  match j with
  | .object ms => decodeSystemStatMembers ms old
  | .null => ⟨none, old⟩
  | _ => ⟨some .unmarshalType, old⟩

/-- Decoding of the members of an object into the counters struct. -/
def decodeCountersMembers : List (GoString × JSON) → Counters → Outcome JsonError Counters
  | [], s => ⟨none, s⟩
  | (k, v) :: ms, s =>
    if foldName k = ascii "RX_BYTES" then
      let o := decodeString v s.RXBytes
      let o2 := decodeCountersMembers ms { s with RXBytes := o.target }
      ⟨saveError o.err o2.err, o2.target⟩
    else if foldName k = ascii "TX_BYTES" then
      let o := decodeString v s.TXBytes
      let o2 := decodeCountersMembers ms { s with TXBytes := o.target }
      ⟨saveError o.err o2.err, o2.target⟩
    else decodeCountersMembers ms s

/-- Decoding of a value into the counters struct. -/
def decodeCounters (j : JSON) (old : Counters) : Outcome JsonError Counters :=
  match j with
  | .object ms => decodeCountersMembers ms old
  | .null => ⟨none, old⟩
  | _ => ⟨some .unmarshalType, old⟩

/-- Decoding of the members of an object into the struct of one interface. -/
def decodeIfaceMembers : List (GoString × JSON) → Iface → Outcome JsonError Iface
  | [], s => ⟨none, s⟩
  | (k, v) :: ms, s =>
    if foldName k = ascii "MAC" then
      let o := decodeString v s.Mac
      let o2 := decodeIfaceMembers ms { s with Mac := o.target }
      ⟨saveError o.err o2.err, o2.target⟩
    else if foldName k = ascii "STATS" then
      let o := decodeCounters v s.Stats
      let o2 := decodeIfaceMembers ms { s with Stats := o.target }
      ⟨saveError o.err o2.err, o2.target⟩
    else decodeIfaceMembers ms s

/-- Decoding of a value into the struct of one interface. -/
def decodeIface (j : JSON) (old : Iface) : Outcome JsonError Iface :=
  match j with
  | .object ms => decodeIfaceMembers ms old
  | .null => ⟨none, old⟩
  | _ => ⟨some .unmarshalType, old⟩

/-- Decoding of the members of an object into a map: every value is decoded into a
fresh zero element, which is then stored under the key, also when its decoding saved
an error. -/
def decodeMapMembers {β : Type} (dec : JSON → β → Outcome JsonError β) (zero : β) :
    List (GoString × JSON) → GoMap β → Outcome JsonError (GoMap β)
  | [], m => ⟨none, m⟩
  | (k, v) :: ms, m =>
    let o := dec v zero
    let o2 := decodeMapMembers dec zero ms (m.set k o.target)
    ⟨saveError o.err o2.err, o2.target⟩

/-- Decoding of a value into a map: `null` gives the nil map. -/
def decodeMap {β : Type} (dec : JSON → β → Outcome JsonError β) (zero : β)
    (j : JSON) (old : GoMap β) : Outcome JsonError (GoMap β) :=
  match j with
  | .object ms => decodeMapMembers dec zero ms old
  | .null => ⟨none, []⟩
  | _ => ⟨some .unmarshalType, old⟩

/-- Model of `json.Unmarshal` at the type that `dec` decodes: a syntax error leaves the
target untouched; otherwise the document is stored into it. -/
def jsonUnmarshal {τ : Type} (dec : JSON → τ → Outcome JsonError τ)
    (data : GoString) (t : τ) : Outcome JsonError τ :=
  match parseJSON data with
  | none => ⟨some .syntaxError, t⟩
  | some j => dec j t

/-- Model of `json.Unmarshal` at type `*SystemStat`. -/
def jsonUnmarshalSystemStat (data : GoString) (t : SystemStat) : Outcome JsonError SystemStat :=
  jsonUnmarshal decodeSystemStat data t

/-- Model of `json.Unmarshal` at type `*DPIStat`. -/
def jsonUnmarshalDPIStat (data : GoString) (t : DPIStat) : Outcome JsonError DPIStat :=
  jsonUnmarshal (decodeMap (decodeMap decodeCounters ⟨[], []⟩) []) data t

/-- Model of `json.Unmarshal` at type `*InterfacesStat`. -/
def jsonUnmarshalInterfacesStat (data : GoString) (t : InterfacesStat) :
    Outcome JsonError InterfacesStat :=
  jsonUnmarshal (decodeMap decodeIface ⟨[], ⟨[], []⟩⟩) data t

/-- One value together with the bytes it is written in, which is what a
`json.RawMessage` receives. -/
def parseRaw (fuel : Nat) (s : GoString) : Option (GoString × GoString) :=
  (parseValue fuel s).map (fun vr => (s.take (s.length - vr.2.length), vr.2))

/-- The members of the object held by `data`, every value as the bytes it is written
in; `none` when `data` does not hold an object. -/
def rawMembers (data : GoString) : Option (List (GoString × GoString)) :=
  match skipWS data with
  | [] => none
  | c :: rest =>
    if c = 123 then
      match skipWS rest with
      | [] => none
      | c1 :: r1 =>
        if c1 = 125 then some []
        else (parseMembers (parseRaw data.length) (c1 :: r1).length (c1 :: r1)).map
          (fun mr => mr.1)
    else none

/-- Model of `json.Unmarshal` at type `*map[string]json.RawMessage`. -/
def jsonUnmarshalEnvelope (data : GoString) (rm : GoMap GoString) :
    Outcome JsonError (GoMap GoString) :=
  match parseJSON data with
  | none => ⟨some .syntaxError, rm⟩
  | some .null => ⟨none, []⟩
  | some (.object _) =>
    match rawMembers data with
    | some ms => ⟨none, ms.foldl (fun m e => m.set e.1 e.2) rm⟩
    | none => ⟨some .syntaxError, rm⟩
  | some _ => ⟨some .unmarshalType, rm⟩

/-! ## `Client.read` -/

/-- The lines that `Client.read` writes to the log, each with the error it reports. -/
inductive LogLine where
  | read
  | unmarshal (e : WSError JsonError)
  | unmarshalSystemStats (e : JsonError)
  | unmarshalExport (e : JsonError)
  | unmarshalInterfaces (e : JsonError)
  deriving DecidableEq, Repr

/-- What `Client.read` does that can be observed: a line in the log, a send on one of
the three channels, the close of `doneCh`, a panic. -/
inductive Event where
  | log (l : LogLine)
  | system (s : SystemStat)
  | dpi (s : DPIStat)
  | interfaces (s : InterfacesStat)
  | closeDone
  | panic (p : Panic)
  deriving DecidableEq, Repr

/-- The log line of a failed call, none for `err == nil`. -/
def logIfErr {ε : Type} (line : ε → LogLine) (err : Option ε) : List Event :=
  match err with
  | some e => [Event.log (line e)]
  | none => []

/-- The body of `for sn, sk := range rm` in `Client.read` for one entry. -/
def dispatchEntry (sn sk : GoString) : List Event :=
  if sn = ascii "system-stats" then
    let o := jsonUnmarshalSystemStat sk ⟨[], [], []⟩
    logIfErr LogLine.unmarshalSystemStats o.err ++ [Event.system o.target]
  else if sn = ascii "export" then
    let o := jsonUnmarshalDPIStat sk []
    logIfErr LogLine.unmarshalExport o.err ++ [Event.dpi o.target]
  else if sn = ascii "interfaces" then
    let o := jsonUnmarshalInterfacesStat sk []
    logIfErr LogLine.unmarshalInterfaces o.err ++ [Event.interfaces o.target]
  else []

/-- The loop `for sn, sk := range rm` of `Client.read`, the entries in the order in
which `range` visits them. -/
def dispatch : GoMap GoString → List Event
  | [] => []
  | (sn, sk) :: rm => dispatchEntry sn sk ++ dispatch rm

/-- One round of the loop of `Client.read` on the message `m` that `ReadMessage`
returned; `visit` is the order in which `range` visits the map. -/
def readRound (visit : GoMap GoString → GoMap GoString) (m : GoString) : Exec (List Event) :=
  match unmarshalWS jsonUnmarshalEnvelope m [] with
  | .panicked p => .panicked p
  | .returned o => .returned (logIfErr LogLine.unmarshal o.err ++ dispatch (visit o.target))

/-- The loop of `Client.read` while `doneCh` is open, on the successive results of
`ReadMessage`, `none` being a failed read: the events up to the exit of the loop, or up
to the point where it waits for a message that does not come. -/
def read (visit : GoMap GoString → GoMap GoString) : List (Option GoString) → List Event
  | [] => []
  | none :: _ => [Event.log LogLine.read, Event.closeDone]
  | some m :: rest =>
    match readRound visit m with
    | .panicked p => [Event.panic p]
    | .returned evs => evs ++ read visit rest

/-- The entry decodes without error into the stat of its topic; an entry of another
topic has nothing to decode. -/
def ValidPayload (sn sk : GoString) : Prop :=
  (sn = ascii "system-stats" → (jsonUnmarshalSystemStat sk ⟨[], [], []⟩).err = none) ∧
  (sn = ascii "export" → (jsonUnmarshalDPIStat sk []).err = none) ∧
  (sn = ascii "interfaces" → (jsonUnmarshalInterfacesStat sk []).err = none)

instance (sn sk : GoString) : Decidable (ValidPayload sn sk) := by
  unfold ValidPayload; infer_instance

/-- The send that the claim expects for an entry: on the channel of its topic, of the
value decoded from its payload; none for another topic. -/
def expectedSend (sn sk : GoString) : Option Event :=
  if sn = ascii "system-stats" then some (Event.system (jsonUnmarshalSystemStat sk ⟨[], [], []⟩).target)
  else if sn = ascii "export" then some (Event.dpi (jsonUnmarshalDPIStat sk []).target)
  else if sn = ascii "interfaces" then
    some (Event.interfaces (jsonUnmarshalInterfacesStat sk []).target)
  else none

/-! ## `Client.Stats`: the stop function and the two goroutines -/

/-- Where the caller stands with the function that `Client.Stats` returned: not in it,
between `close(doneCh)` and the return of `wg.Wait()`, or back from it. -/
inductive StopPc where
  | idle
  | waiting
  | returned
  deriving DecidableEq, Repr

/-- Where `Client.keepAlive` stands: before `wg.Add(1)`, before the heartbeat request,
in the `select`, or returned. -/
inductive KeepPc where
  | start
  | request
  | selecting
  | exited
  deriving DecidableEq, Repr

/-- Where `Client.read` stands: before `wg.Add(1)`, at the `select` on `doneCh`, in
`ReadMessage`, in the loop over the envelope with that many sends to come, or
returned. -/
inductive ReadPc where
  | start
  | check
  | reading
  | sending (n : Nat)
  | exited
  deriving DecidableEq, Repr

/-- State of one subscription: the channel `doneCh`, the counter of the wait group,
the three threads of control, the heartbeat requests and the channel sends so far, and
the panic that ended the program, if any. -/
structure Sub where
  doneClosed : Bool
  wg : Nat
  stop : StopPc
  keep : KeepPc
  reader : ReadPc
  heartbeats : Nat
  sends : Nat
  panicked : Option Panic
  deriving DecidableEq, Repr

/-- The state in which `Client.Stats` returns: both goroutines started, neither has
run. -/
def Sub.init : Sub :=
  ⟨false, 0, .idle, .start, .start, 0, 0, none⟩

/-- The atomic steps of the three threads of control. -/
inductive Step where
  | stopClose
  | stopWait
  | keepAdd
  | keepRequest
  | keepTimeout
  | keepDone
  | readAdd
  | readCheck
  | readMessage (sends : Nat)
  | readSend
  | readError
  deriving DecidableEq, Repr

/-- The statement `close(doneCh)`: it panics on a closed channel. -/
def Sub.close (s : Sub) : Sub :=
  if s.doneClosed then { s with panicked := some .closeOfClosedChannel }
  else { s with doneClosed := true }

/-- One step, `none` when the thread of control is not at that statement, or is blocked
there, or the program has panicked. -/
def step (s : Sub) (e : Step) : Option Sub :=
  if s.panicked.isSome then none
  else
    match e with
    | .stopClose =>
      if s.stop = .waiting then none
      else
        let s1 := s.close
        if s1.panicked.isSome then some s1 else some { s1 with stop := .waiting }
    | .stopWait =>
      if s.stop = .waiting ∧ s.wg = 0 then some { s with stop := .returned } else none
    | .keepAdd =>
      if s.keep = .start then some { s with wg := s.wg + 1, keep := .request } else none
    | .keepRequest =>
      if s.keep = .request then
        some { s with heartbeats := s.heartbeats + 1, keep := .selecting }
      else none
    | .keepTimeout =>
      if s.keep = .selecting then some { s with keep := .request } else none
    | .keepDone =>
      if s.keep = .selecting ∧ s.doneClosed then
        some { s with keep := .exited, wg := s.wg - 1 }
      else none
    | .readAdd =>
      if s.reader = .start then some { s with wg := s.wg + 1, reader := .check } else none
    | .readCheck =>
      if s.reader = .check then
        if s.doneClosed then some { s with reader := .exited, wg := s.wg - 1 }
        else some { s with reader := .reading }
      else none
    | .readMessage n =>
      if s.reader = .reading then
        some { s with reader := if n = 0 then .check else .sending n }
      else none
    | .readSend =>
      match s.reader with
      | .sending (n + 1) =>
        some { s with sends := s.sends + 1, reader := if n = 0 then .check else .sending n }
      | _ => none
    | .readError =>
      if s.reader = .reading then
        let s1 := s.close
        if s1.panicked.isSome then some s1
        else some { s1 with reader := .exited, wg := s1.wg - 1 }
      else none

/-- A sequence of steps from a state, `none` when one of them cannot be taken. -/
def run : Sub → List Step → Option Sub
  | s, [] => some s
  | s, e :: es =>
    match step s e with
    | none => none
    | some s1 => run s1 es

/-! ## `strconv.Atoi` and the conversion to `float64` -/

/-- The errors that a `*strconv.NumError` wraps: `ErrSyntax` and `ErrRange`. -/
inductive NumError where
  | errSyntax
  | errRange
  deriving DecidableEq, Repr

/-- The digit loop of the fast path of `strconv.Atoi`, `none` for a syntax error. -/
def atoiLoop : GoString → Nat → Option Nat
  | [], n => some n
  | ch :: s, n => if 48 ≤ ch ∧ ch ≤ 57 then atoiLoop s (n * 10 + (ch - 48)) else none

/-- The digit loop of `strconv.ParseUint` for base 10 and 64 bits: the value returned
and the error. -/
def parseUintLoop : GoString → Nat → Nat × Option NumError
  | [], n => (n, none)
  | c :: s, n =>
    if 48 ≤ c ∧ c ≤ 57 then
      if n ≥ (2 ^ 64 - 1) / 10 + 1 then (2 ^ 64 - 1, some .errRange)
      else
        let n1 := (n * 10 + (c - 48)) % 2 ^ 64
        if n1 < n * 10 ∨ n1 > 2 ^ 64 - 1 then (2 ^ 64 - 1, some .errRange)
        else parseUintLoop s n1
    else (0, some .errSyntax)

/-- Model of `strconv.ParseUint(s, 10, 0)` where `int` has 64 bits. -/
def ParseUint (s : GoString) : Nat × Option NumError :=
  if s = [] then (0, some .errSyntax) else parseUintLoop s 0

/-- Model of `strconv.ParseInt(s, 10, 0)` where `int` has 64 bits. -/
def ParseInt (s : GoString) : Int × Option NumError :=
  match s with
  | [] => (0, some .errSyntax)
  | c :: r =>
    let neg := decide (c = 45)
    let s1 := if c = 43 ∨ c = 45 then r else s
    let (un, err) := ParseUint s1
    if err = some .errSyntax then (0, err)
    else if ¬ neg ∧ un ≥ 2 ^ 63 then (2 ^ 63 - 1, some .errRange)
    else if neg ∧ un > 2 ^ 63 then (-(2 ^ 63), some .errRange)
    else (if neg then -(un : Int) else (un : Int), none)

/-- Model of `strconv.Atoi` where `int` has 64 bits: the value and the error. -/
def Atoi (s : GoString) : Int × Option NumError :=
  if 0 < s.length ∧ s.length < 19 then
    let s1 := match s with
      | [] => s
      | c :: r => if c = 45 ∨ c = 43 then r else s
    if s1.length < 1 then (0, some .errSyntax)
    else
      match atoiLoop s1 0 with
      | none => (0, some .errSyntax)
      | some n => (if s.head? = some 45 then -(n : Int) else (n : Int), none)
  else ParseInt s

/-- The number of bits by which `a` exceeds the 53 bits of a double's significand; the
first argument bounds the loop. -/
def excessBits : Nat → Nat → Nat
  | 0, _ => 0
  | fuel + 1, a => if a < 2 ^ 53 then 0 else excessBits fuel (a / 2) + 1

/-- Model of the conversion `float64(n)` of a 64-bit `int`: the nearest double, ties to
even. That double is a whole number and is given as such. -/
def float64 (n : Int) : Int :=
  let a := n.natAbs
  let e := excessBits 64 a
  let q := a / 2 ^ e
  let r := a % 2 ^ e
  let q1 := if 2 * r > 2 ^ e ∨ (2 * r = 2 ^ e ∧ q % 2 = 1) then q + 1 else q
  if n < 0 then -((q1 * 2 ^ e : Nat) : Int) else ((q1 * 2 ^ e : Nat) : Int)

/-! ## The collectors -/

/-- The gauges of the three collectors. -/
inductive Gauge where
  | systemCpuPercent
  | systemUptimeSeconds
  | systemMemoryPercent
  | dpiReceivedBytes
  | dpiTransmittedBytes
  | interfacesReceivedBytes
  | interfacesTransmittedBytes
  deriving DecidableEq, Repr

/-- What a collector does that can be observed: `Set` on a gauge under label values,
with the value set, or a panic, which ends it. -/
inductive Effect where
  | set (gauge : Gauge) (labels : List GoString) (value : Int)
  | panic (p : Panic)
  deriving DecidableEq, Repr

/-- Model of `GaugeVec.WithLabelValues` of the Prometheus client for a vector with
`names` label names: it panics unless it is given that many values, each of them valid
UTF-8; `none` when it returns the gauge. -/
def WithLabelValues (names : Nat) (lvs : List GoString) : Option Panic :=
  if lvs.length = names ∧ ∀ l ∈ lvs, ValidUTF8 l then none else some .invalidLabelValue

/-- The body of `for s := range ch` in `systemCollector.collect`. -/
def systemCollectStat (s : SystemStat) : List Effect :=
  [Effect.set .systemCpuPercent [] (float64 (Atoi s.CPU).1),
    Effect.set .systemUptimeSeconds [] (float64 (Atoi s.Uptime).1),
    Effect.set .systemMemoryPercent [] (float64 (Atoi s.Mem).1)]

/-- The loop `for tc, stat := range a` in `dpiCollector.collect`, the entries in the
order in which `range` visits them; `next` is what the collector does after the loop. -/
def dpiCollectKeys (ip : GoString) : GoMap Counters → List Effect → List Effect
  | [], next => next
  | (tc, stat) :: a, next =>
    let t := Split tc 124
    match t.get? 1, t.get? 0 with
    | some t1, some t0 =>
      match WithLabelValues 3 [ip, t1, t0] with
      | some p => [Effect.panic p]
      | none =>
        Effect.set .dpiReceivedBytes [ip, t1, t0] (float64 (Atoi stat.RXBytes).1) ::
          match WithLabelValues 3 [ip, t1, t0] with
          | some p => [Effect.panic p]
          | none =>
            Effect.set .dpiTransmittedBytes [ip, t1, t0] (float64 (Atoi stat.TXBytes).1) ::
              dpiCollectKeys ip a next
    | _, _ => [Effect.panic .indexOutOfRange]

/-- The loop `for ip, a := range s` in `dpiCollector.collect`. -/
def dpiCollectStat : DPIStat → List Effect → List Effect
  | [], next => next
  | (ip, a) :: s, next => dpiCollectKeys ip a (dpiCollectStat s next)

/-- Model of `dpiCollector.collect` on the stats that the channel delivers. -/
def dpiCollect : List DPIStat → List Effect
  | [] => []
  | s :: ch => dpiCollectStat s (dpiCollect ch)

/-- The loop `for name, iface := range s` in `interfacesCollector.collect`, the entries
in the order in which `range` visits them; `next` is what the collector does after the
loop. -/
def interfacesCollectStat : InterfacesStat → List Effect → List Effect
  | [], next => next
  | (name, iface) :: s, next =>
    match WithLabelValues 2 [name, iface.Mac] with
    | some p => [Effect.panic p]
    | none =>
      Effect.set .interfacesReceivedBytes [name, iface.Mac]
          (float64 (Atoi iface.Stats.RXBytes).1) ::
        match WithLabelValues 2 [name, iface.Mac] with
        | some p => [Effect.panic p]
        | none =>
          Effect.set .interfacesTransmittedBytes [name, iface.Mac]
              (float64 (Atoi iface.Stats.TXBytes).1) ::
            interfacesCollectStat s next

/-! ## Decimal integer strings -/

/-- The number that a run of decimal digits writes, read after the digits of `n`;
`none` when a byte is not a digit. -/
def digitsValue : GoString → Nat → Option Nat
  | [], n => some n
  | c :: s, n => if 48 ≤ c ∧ c ≤ 57 then digitsValue s (10 * n + (c - 48)) else none

/-- The integer that a decimal integer string writes: an optional sign and one digit
or more; `none` for any other string. -/
def decimalValue (s : GoString) : Option Int :=
  match s with
  | [] => none
  | c :: r =>
    if c = 45 then
      if r = [] then none else (digitsValue r 0).map (fun (n : Nat) => -(n : Int))
    else if c = 43 then
      if r = [] then none else (digitsValue r 0).map (fun (n : Nat) => (n : Int))
    else (digitsValue (c :: r) 0).map (fun (n : Nat) => (n : Int))

/-- The segments of `s` that the byte `sep` delimits. -/
def segments (sep : Nat) : GoString → List GoString
  | [] => [[]]
  | c :: s =>
    if c = sep then [] :: segments sep s
    else
      match segments sep s with
      | [] => [[c]]
      | seg :: rest => (c :: seg) :: rest

/-- Segment number `i`, counted from zero, of a composite key delimited by `|`. -/
def pipeSegment (k : GoString) (i : Nat) : GoString := (segments 124 k).getD i []

/-- The two observations that the claim expects for one composite key of the client
`ip`: the values `rx` and `tx` as doubles, under the client address, the second segment
and the first segment of the key. -/
def dpiObservations (ip k : GoString) (rx tx : Int) : List Effect :=
  [Effect.set .dpiReceivedBytes [ip, pipeSegment k 1, pipeSegment k 0] (float64 rx),
    Effect.set .dpiTransmittedBytes [ip, pipeSegment k 1, pipeSegment k 0] (float64 tx)]

/-! ## Lemmas on the library models -/

theorem IndexByte_eq_none {s : GoString} {c : Nat} (h : c ∉ s) : IndexByte s c = none := by
  induction s with
  | nil => rfl
  | cons b rest ih =>
    simp only [List.mem_cons, not_or] at h
    have hb : ¬ b = c := fun e => h.1 e.symm
    simp [IndexByte, hb, ih h.2]

theorem IndexByte_append {p : GoString} {c : Nat} (h : c ∉ p) (rest : GoString) :
    IndexByte (p ++ c :: rest) c = some p.length := by
  induction p with
  | nil => simp [IndexByte]
  | cons b p ih =>
    simp only [List.mem_cons, not_or] at h
    have hb : ¬ b = c := fun e => h.1 e.symm
    simp [IndexByte, hb, ih h.2]

theorem SplitN_two_eq {s : GoString} (c : Nat) (hs : s ≠ []) :
    SplitN s c 2 = genSplit c 1 s := by
  cases s with
  | nil => exact absurd rfl hs
  | cons b rest =>
    have h : min 2 ((b :: rest).length + 1) - 1 = 1 := by
      simp only [List.length_cons]; omega
    unfold SplitN
    rw [h]; rfl

theorem SplitN_two_of_not_mem {s : GoString} {c : Nat} (hs : s ≠ []) (h : c ∉ s) :
    SplitN s c 2 = [s] := by
  rw [SplitN_two_eq c hs]
  simp [genSplit, IndexByte_eq_none h]

theorem SplitN_two_append {p : GoString} {c : Nat} (h : c ∉ p) (rest : GoString) :
    SplitN (p ++ c :: rest) c 2 = [p, rest] := by
  rw [SplitN_two_eq c (by simp)]
  simp [genSplit, IndexByte_append h]

theorem SplitN_two_length (s : GoString) (c : Nat) :
    (SplitN s c 2).length = 1 ∨ (SplitN s c 2).length = 2 := by
  unfold SplitN
  simp only [OfNat.ofNat_ne_zero, if_false]
  rcases Nat.lt_or_ge (s.length + 1) 2 with hl | hl
  · have : min 2 (s.length + 1) - 1 = 0 := by omega
    simp [this, genSplit]
  · have : min 2 (s.length + 1) - 1 = 1 := by omega
    rw [this]
    cases hi : IndexByte s c <;> simp [genSplit, hi]

theorem unmarshalWS_cons_ne {ε τ : Type} (jsonUnmarshal : GoString → τ → Outcome ε τ)
    (d0 : Nat) (rest : GoString) (v : τ) (h : d0 ≠ 123) :
    unmarshalWS jsonUnmarshal (d0 :: rest) v =
      if (SplitN (d0 :: rest) 10 2).length ≠ 2 then
        .returned ⟨some (.elements (SplitN (d0 :: rest) 10 2).length), v⟩
      else if ((SplitN (d0 :: rest) 10 2).getD 1 []).length = 0 then .returned ⟨none, v⟩
      else .returned (jsonUnmarshal ((SplitN (d0 :: rest) 10 2).getD 1 []) v).decode := by
  simp only [unmarshalWS, h, if_false]

theorem head_append_newline_ne (p rest : GoString) (hp0 : p.head? ≠ some 123) :
    ∃ d0 tl, p ++ 10 :: rest = d0 :: tl ∧ d0 ≠ 123 := by
  cases p with
  | nil => exact ⟨10, rest, rfl, by decide⟩
  | cons a p => exact ⟨a, p ++ 10 :: rest, rfl, fun e => hp0 (by simp [e])⟩

theorem unmarshalWS_framed {ε τ : Type} (jsonUnmarshal : GoString → τ → Outcome ε τ)
    (p rest : GoString) (v : τ) (hp : 10 ∉ p) (hp0 : p.head? ≠ some 123) :
    unmarshalWS jsonUnmarshal (p ++ 10 :: rest) v =
      if rest.length = 0 then .returned ⟨none, v⟩
      else .returned (jsonUnmarshal rest v).decode := by
  obtain ⟨d0, tl, he, hd⟩ := head_append_newline_ne p rest hp0
  have hs := SplitN_two_append hp rest
  rw [he] at hs ⊢
  rw [unmarshalWS_cons_ne _ _ _ _ hd, hs]
  simp

theorem first_ascii {b : Nat} (h : b < 0x80) : first b = 0xF0 := by
  unfold first; rw [if_pos h]

theorem first_invalid {b : Nat} (h : 0x80 ≤ b) (h2 : b < 0xC2 ∨ 0xF4 < b) : first b = 0xF1 := by
  unfold first; split_ifs <;> omega

theorem first_two {b : Nat} (h : 0xC2 ≤ b) (h2 : b < 0xE0) : first b = 0x02 := by
  unfold first; split_ifs <;> omega

theorem first_E0 : first 0xE0 = 0x13 := by decide

theorem first_three {b : Nat} (h : 0xE1 ≤ b) (h2 : b ≤ 0xEF) (h3 : b ≠ 0xED) :
    first b = 0x03 := by
  unfold first; split_ifs <;> omega

theorem first_ED : first 0xED = 0x23 := by decide

theorem first_F0 : first 0xF0 = 0x34 := by decide

theorem first_four {b : Nat} (h : 0xF1 ≤ b) (h2 : b ≤ 0xF3) : first b = 0x04 := by
  unfold first; split_ifs <;> omega

theorem first_F4 : first 0xF4 = 0x44 := by decide

theorem DecodeRune_ascii {b : Nat} (h : b < 0x80) (t : GoString) :
    DecodeRune (b :: t) = (b, 1) := by
  simp [DecodeRune, first_ascii h]

theorem DecodeRune_two {b s1 : Nat} (h : Two b s1) (t : GoString) :
    DecodeRune (b :: s1 :: t) = ((b % 32) * 64 + s1 % 64, 2) := by
  obtain ⟨h1, h2, h3, h4⟩ := h
  have hf := first_two h1 (by omega)
  simp only [DecodeRune, List.length_cons, List.getD_cons_zero, List.getD_cons_succ, hf,
    acceptRanges]
  simp only [Nat.reduceDiv, Nat.reduceMod, Nat.reduceLeDiff, ge_iff_le, if_true, if_false,
    Nat.reduceEqDiff, OfNat.ofNat_ne_zero, le_refl]
  rw [if_neg (by omega), if_neg (by omega), if_neg (by omega)]

theorem first_three_cases {b : Nat} (h1 : 0xE0 ≤ b) (h2 : b ≤ 0xEF) :
    first b % 8 = 3 ∧
    acceptRanges (first b / 16) =
      ((if b = 0xE0 then 0xA0 else 0x80), (if b = 0xED then 0x9F else 0xBF)) ∧
    first b < 0xF0 := by
  by_cases e0 : b = 0xE0
  · subst e0; decide
  · by_cases ed : b = 0xED
    · subst ed; decide
    · rw [first_three (by omega) h2 ed]; simp [acceptRanges, e0, ed]

theorem first_four_cases {b : Nat} (h1 : 0xF0 ≤ b) (h2 : b ≤ 0xF4) :
    first b % 8 = 4 ∧
    acceptRanges (first b / 16) =
      ((if b = 0xF0 then 0x90 else 0x80), (if b = 0xF4 then 0x8F else 0xBF)) ∧
    first b < 0xF0 := by
  by_cases e0 : b = 0xF0
  · subst e0; decide
  · by_cases e4 : b = 0xF4
    · subst e4; decide
    · rw [first_four (by omega) (by omega)]; simp [acceptRanges, e0, e4]

theorem DecodeRune_three {b s1 s2 : Nat} (h : Three b s1 s2) (t : GoString) :
    DecodeRune (b :: s1 :: s2 :: t) = ((b % 16) * 4096 + (s1 % 64) * 64 + s2 % 64, 3) := by
  obtain ⟨h1, h2, h3, h4, h5, h6⟩ := h
  obtain ⟨hsz, hacc, hlt⟩ := first_three_cases h1 h2
  simp only [DecodeRune, List.length_cons, List.getD_cons_zero, List.getD_cons_succ, hsz, hacc]
  rw [if_neg (by omega), if_neg (by omega), if_neg (by omega), if_neg (by omega),
    if_neg (by omega), if_neg (by omega), if_pos (by omega)]

theorem DecodeRune_four {b s1 s2 s3 : Nat} (h : Four b s1 s2 s3) (t : GoString) :
    DecodeRune (b :: s1 :: s2 :: s3 :: t) =
      ((b % 8) * 262144 + (s1 % 64) * 4096 + (s2 % 64) * 64 + s3 % 64, 4) := by
  obtain ⟨h1, h2, h3, h4, h5, h6, h7, h8⟩ := h
  obtain ⟨hsz, hacc, hlt⟩ := first_four_cases h1 h2
  simp only [DecodeRune, List.length_cons, List.getD_cons_zero, List.getD_cons_succ, hsz, hacc]
  rw [if_neg (by omega), if_neg (by omega), if_neg (by omega), if_neg (by omega),
    if_neg (by omega), if_neg (by omega), if_neg (by omega), if_neg (by omega)]

theorem EncodeRune_two {b s1 : Nat} (h : Two b s1) :
    EncodeRune ((b % 32) * 64 + s1 % 64) = [b, s1] := by
  obtain ⟨h1, h2, h3, h4⟩ := h
  unfold EncodeRune
  rw [if_neg (by omega), if_pos (by omega)]
  congr 1
  · omega
  · congr 1; omega

theorem EncodeRune_three {b s1 s2 : Nat} (h : Three b s1 s2) :
    EncodeRune ((b % 16) * 4096 + (s1 % 64) * 64 + s2 % 64) = [b, s1, s2] := by
  obtain ⟨h1, h2, h3, h4, h5, h6⟩ := h
  unfold EncodeRune
  have e1 : (if b = 0xE0 then 0xA0 else 0x80) ≤ s1 → (b = 0xE0 → 0xA0 ≤ s1) ∧ 0x80 ≤ s1 := by
    intro h; split_ifs at h <;> omega
  have e2 : s1 ≤ (if b = 0xED then 0x9F else 0xBF) → (b = 0xED → s1 ≤ 0x9F) ∧ s1 ≤ 0xBF := by
    intro h; split_ifs at h <;> omega
  obtain ⟨a1, a2⟩ := e1 h3
  obtain ⟨a3, a4⟩ := e2 h4
  rw [if_neg (by omega), if_neg (by omega), if_neg (by omega), if_pos (by omega)]
  congr 1
  · omega
  · congr 1
    · omega
    · congr 1; omega

theorem EncodeRune_four {b s1 s2 s3 : Nat} (h : Four b s1 s2 s3) :
    EncodeRune ((b % 8) * 262144 + (s1 % 64) * 4096 + (s2 % 64) * 64 + s3 % 64) =
      [b, s1, s2, s3] := by
  obtain ⟨h1, h2, h3, h4, h5, h6, h7, h8⟩ := h
  unfold EncodeRune
  have e1 : (if b = 0xF0 then 0x90 else 0x80) ≤ s1 → (b = 0xF0 → 0x90 ≤ s1) ∧ 0x80 ≤ s1 := by
    intro h; split_ifs at h <;> omega
  have e2 : s1 ≤ (if b = 0xF4 then 0x8F else 0xBF) → (b = 0xF4 → s1 ≤ 0x8F) ∧ s1 ≤ 0xBF := by
    intro h; split_ifs at h <;> omega
  obtain ⟨a1, a2⟩ := e1 h3
  obtain ⟨a3, a4⟩ := e2 h4
  rw [if_neg (by omega), if_neg (by omega), if_neg (by omega), if_neg (by omega)]
  congr 1
  · omega
  · congr 1
    · omega
    · congr 1
      · omega
      · congr 1; omega

theorem DecodeRune_inv {b : Nat} {rest : GoString} (hb : 0x80 ≤ b)
    (h : (DecodeRune (b :: rest)).2 ≠ 1) :
    (∃ s1 t, rest = s1 :: t ∧ Two b s1) ∨
    (∃ s1 s2 t, rest = s1 :: s2 :: t ∧ Three b s1 s2) ∨
    (∃ s1 s2 s3 t, rest = s1 :: s2 :: s3 :: t ∧ Four b s1 s2 s3) := by
  have hcl : (b < 0xC2 ∨ 0xF4 < b) ∨ (0xC2 ≤ b ∧ b < 0xE0) ∨ (0xE0 ≤ b ∧ b ≤ 0xEF) ∨
      (0xF0 ≤ b ∧ b ≤ 0xF4) := by omega
  rcases hcl with hc | hc | hc | hc
  · exfalso; apply h
    simp [DecodeRune, first_invalid hb hc]
  · left
    have hf := first_two hc.1 hc.2
    rcases rest with _ | ⟨s1, t⟩
    · exfalso; apply h
      simp [DecodeRune, hf]
    · refine ⟨s1, t, rfl, hc.1, by omega, ?_⟩
      by_contra hr
      apply h
      simp only [DecodeRune, List.length_cons, List.getD_cons_zero, List.getD_cons_succ, hf,
        acceptRanges]
      simp only [Nat.reduceDiv, Nat.reduceMod, Nat.reduceLeDiff, ge_iff_le, if_true, if_false,
        Nat.reduceEqDiff, OfNat.ofNat_ne_zero, le_refl]
      rw [if_neg (by omega), if_neg (by omega), if_pos (by omega)]
  · right; left
    obtain ⟨hsz, hacc, hlt⟩ := first_three_cases hc.1 hc.2
    rcases rest with _ | ⟨s1, _ | ⟨s2, t⟩⟩
    · exfalso; apply h
      simp only [DecodeRune, List.length_cons, List.length_nil, List.getD_cons_zero, hsz]
      rw [if_neg (by omega), if_neg (by omega), if_pos (by omega)]
    · exfalso; apply h
      simp only [DecodeRune, List.length_cons, List.length_nil, List.getD_cons_zero, hsz]
      rw [if_neg (by omega), if_neg (by omega), if_pos (by omega)]
    · refine ⟨s1, s2, t, rfl, ?_⟩
      by_contra hr
      apply h
      simp only [DecodeRune, List.length_cons, List.getD_cons_zero, List.getD_cons_succ, hsz,
        hacc]
      simp only [Three] at hr
      rw [if_neg (by omega), if_neg (by omega), if_neg (by omega)]
      split_ifs at hr ⊢ <;> first | rfl | (exfalso; omega)
  · right; right
    obtain ⟨hsz, hacc, hlt⟩ := first_four_cases hc.1 hc.2
    rcases rest with _ | ⟨s1, _ | ⟨s2, _ | ⟨s3, t⟩⟩⟩
    · exfalso; apply h
      simp only [DecodeRune, List.length_cons, List.length_nil, List.getD_cons_zero, hsz]
      rw [if_neg (by omega), if_neg (by omega), if_pos (by omega)]
    · exfalso; apply h
      simp only [DecodeRune, List.length_cons, List.length_nil, List.getD_cons_zero, hsz]
      rw [if_neg (by omega), if_neg (by omega), if_pos (by omega)]
    · exfalso; apply h
      simp only [DecodeRune, List.length_cons, List.length_nil, List.getD_cons_zero, hsz]
      rw [if_neg (by omega), if_neg (by omega), if_pos (by omega)]
    · refine ⟨s1, s2, s3, t, rfl, ?_⟩
      by_contra hr
      apply h
      simp only [DecodeRune, List.length_cons, List.getD_cons_zero, List.getD_cons_succ, hsz,
        hacc]
      simp only [Four] at hr
      rw [if_neg (by omega), if_neg (by omega), if_neg (by omega)]
      split_ifs at hr ⊢ <;> first | rfl | (exfalso; omega)

theorem appendString_nil (f : Nat) : appendString f [] = [] := by
  cases f <;> rfl

theorem appendString_ascii {b : Nat} (h : b < 0x80) (f : Nat) (rest : GoString) :
    appendString (f + 1) (b :: rest) =
      (if htmlSafeSet b then [b] else escapeByte b) ++ appendString f rest := by
  simp only [appendString, if_pos h]

theorem appendString_two {b s1 : Nat} (h : Two b s1) (f : Nat) (t : GoString) :
    appendString (f + 1) (b :: s1 :: t) = [b, s1] ++ appendString f t := by
  have hb : ¬ b < 0x80 := by have := h.1; omega
  have hc : ¬ (b % 32 * 64 + s1 % 64 = RuneError ∧ (2 : Nat) = 1) := by simp
  have hd : ¬ (b % 32 * 64 + s1 % 64 = 0x2028 ∨ b % 32 * 64 + s1 % 64 = 0x2029) := by
    have := h.2.1; omega
  simp only [appendString, if_neg hb, DecodeRune_two h, if_neg hc, if_neg hd]
  simp

theorem appendString_three {b s1 s2 : Nat} (h : Three b s1 s2) (f : Nat) (t : GoString) :
    appendString (f + 1) (b :: s1 :: s2 :: t) =
      (if b % 16 * 4096 + s1 % 64 * 64 + s2 % 64 = 0x2028 ∨
          b % 16 * 4096 + s1 % 64 * 64 + s2 % 64 = 0x2029 then
        [92, 117, 50, 48, 50, hex ((b % 16 * 4096 + s1 % 64 * 64 + s2 % 64) % 16)]
      else [b, s1, s2]) ++ appendString f t := by
  have hb : ¬ b < 0x80 := by have := h.1; omega
  have hc : ¬ (b % 16 * 4096 + s1 % 64 * 64 + s2 % 64 = RuneError ∧ (3 : Nat) = 1) := by simp
  simp only [appendString, if_neg hb, DecodeRune_three h, if_neg hc]
  split_ifs <;> simp

theorem appendString_four {b s1 s2 s3 : Nat} (h : Four b s1 s2 s3) (f : Nat) (t : GoString) :
    appendString (f + 1) (b :: s1 :: s2 :: s3 :: t) = [b, s1, s2, s3] ++ appendString f t := by
  have hb : ¬ b < 0x80 := by have := h.1; omega
  have hc : ¬ (b % 8 * 262144 + s1 % 64 * 4096 + s2 % 64 * 64 + s3 % 64 = RuneError ∧
      (4 : Nat) = 1) := by simp
  have hd : ¬ (b % 8 * 262144 + s1 % 64 * 4096 + s2 % 64 * 64 + s3 % 64 = 0x2028 ∨
      b % 8 * 262144 + s1 % 64 * 4096 + s2 % 64 * 64 + s3 % 64 = 0x2029) := by
    obtain ⟨h1, h2, h3, h4, _⟩ := h
    have e1 : 0x80 ≤ s1 := by split_ifs at h3 <;> omega
    have e2 : b = 0xF0 → 0x90 ≤ s1 := by intro e; simp [e] at h3; omega
    have e3 : s1 ≤ 0xBF := by split_ifs at h4 <;> omega
    clear hc h3 h4
    omega
  simp only [appendString, if_neg hb, DecodeRune_four h, if_neg hc, if_neg hd]
  simp

theorem unquote_quote (f : Nat) (r : GoString) : unquote (f + 1) (34 :: r) = some ([], r) := by
  simp [unquote]

theorem unquote_plain {b : Nat} (h : htmlSafeSet b = true) (f : Nat) (r : GoString) :
    unquote (f + 1) (b :: r) = prepend [b] (unquote f r) := by
  simp only [htmlSafeSet, decide_eq_true_eq] at h
  obtain ⟨h1, h2, h3, h4, h5, h6, h7⟩ := h
  simp only [unquote, if_neg h3, if_neg h7]
  rw [if_neg (by omega), if_pos (by omega)]

theorem unquote_two {b s1 : Nat} (h : Two b s1) (f : Nat) (r : GoString) :
    unquote (f + 1) (b :: s1 :: r) = prepend [b, s1] (unquote f r) := by
  have h1 := h.1
  simp only [unquote, DecodeRune_two h, EncodeRune_two h]
  rw [if_neg (by omega), if_neg (by omega), if_neg (by omega), if_neg (by omega)]
  simp

theorem unquote_three {b s1 s2 : Nat} (h : Three b s1 s2) (f : Nat) (r : GoString) :
    unquote (f + 1) (b :: s1 :: s2 :: r) = prepend [b, s1, s2] (unquote f r) := by
  have h1 := h.1
  simp only [unquote, DecodeRune_three h, EncodeRune_three h]
  rw [if_neg (by omega), if_neg (by omega), if_neg (by omega), if_neg (by omega)]
  simp

theorem unquote_four {b s1 s2 s3 : Nat} (h : Four b s1 s2 s3) (f : Nat) (r : GoString) :
    unquote (f + 1) (b :: s1 :: s2 :: s3 :: r) = prepend [b, s1, s2, s3] (unquote f r) := by
  have h1 := h.1
  simp only [unquote, DecodeRune_four h, EncodeRune_four h]
  rw [if_neg (by omega), if_neg (by omega), if_neg (by omega), if_neg (by omega)]
  simp

theorem hexVal_hex {n : Nat} (h : n < 16) : hexVal (hex n) = some n := by
  unfold hex hexVal
  split_ifs <;> (congr 1; omega)

theorem unquote_u00 {b : Nat} (h : b < 0x80) (f : Nat) (r : GoString) :
    unquote (f + 1) ([92, 117, 48, 48, hex (b / 16), hex (b % 16)] ++ r) =
      prepend [b] (unquote f r) := by
  have e1 : hexVal (hex (b / 16)) = some (b / 16) := hexVal_hex (by omega)
  have e2 : hexVal (hex (b % 16)) = some (b % 16) := hexVal_hex (by omega)
  have e0 : hexVal 48 = some 0 := by decide
  have hv : b / 16 * 16 + b % 16 = b := by omega
  have hs : isSurrogate b = false := by simp [isSurrogate]; omega
  have he : EncodeRune b = [b] := by unfold EncodeRune; rw [if_pos (by omega)]
  simp [unquote, getu4, e0, e1, e2, hv, hs, he]

theorem unquote_u202 {c : Nat} (h : c = 0x2028 ∨ c = 0x2029) (f : Nat) (r : GoString) :
    unquote (f + 1) ([92, 117, 50, 48, 50, hex (c % 16)] ++ r) =
      prepend (EncodeRune c) (unquote f r) := by
  rcases h with h | h <;> subst h <;>
    simp [unquote, getu4, hexVal, hex, isSurrogate]

theorem unquote_escapeByte {b : Nat} (h : b < 0x80) (f : Nat) (r : GoString) :
    unquote (f + 1) (escapeByte b ++ r) = prepend [b] (unquote f r) := by
  unfold escapeByte
  split_ifs with h1 h2 h3 h4
  · rcases h1 with h1 | h1 <;> subst h1 <;> simp [unquote, unescape]
  · subst h2; simp [unquote, unescape]
  · subst h3; simp [unquote, unescape]
  · subst h4; simp [unquote, unescape]
  · exact unquote_u00 h f r

theorem escapeByte_length_pos (b : Nat) : 0 < (escapeByte b).length := by
  unfold escapeByte; split_ifs <;> simp

theorem prepend_some (p s r : GoString) : prepend p (some (s, r)) = some (p ++ s, r) := rfl

theorem utf8Valid_ascii {b : Nat} (h : b < 0x80) (k : Nat) (rest : GoString) :
    utf8Valid (k + 1) (b :: rest) = utf8Valid k rest := by
  simp only [utf8Valid, if_pos h]

theorem utf8Valid_multi {b : Nat} (h : ¬ b < 0x80) (k : Nat) (rest : GoString)
    (hv : utf8Valid (k + 1) (b :: rest) = true) :
    (DecodeRune (b :: rest)).2 ≠ 1 ∧
      utf8Valid k (rest.drop ((DecodeRune (b :: rest)).2 - 1)) = true := by
  simp only [utf8Valid, if_neg h] at hv
  split_ifs at hv with h1
  exact ⟨h1, hv⟩

/-- Reading back what `appendString` wrote, up to the closing quote: the original text,
when it is well-formed UTF-8. -/
theorem unquote_appendString : ∀ (k : Nat) (s : GoString), utf8Valid k s = true →
    ∀ (f1 f2 : Nat) (tail : GoString), k ≤ f1 → (appendString f1 s).length < f2 →
      unquote f2 (appendString f1 s ++ 34 :: tail) = some (s, tail) := by
  intro k
  induction k with
  | zero =>
    intro s hv f1 f2 tail _ hf2
    cases s with
    | nil =>
      obtain ⟨f, rfl⟩ : ∃ f, f2 = f + 1 := ⟨f2 - 1, by omega⟩
      rw [appendString_nil]; exact unquote_quote f tail
    | cons b rest => simp [utf8Valid] at hv
  | succ k ih =>
    intro s hv f1 f2 tail hf1 hf2
    cases s with
    | nil =>
      obtain ⟨f, rfl⟩ : ∃ f, f2 = f + 1 := ⟨f2 - 1, by omega⟩
      rw [appendString_nil]; exact unquote_quote f tail
    | cons b rest =>
      obtain ⟨g1, rfl⟩ : ∃ g, f1 = g + 1 := ⟨f1 - 1, by omega⟩
      obtain ⟨g2, rfl⟩ : ∃ g, f2 = g + 1 := ⟨f2 - 1, by omega⟩
      have hg1 : k ≤ g1 := by omega
      by_cases hb : b < 0x80
      · rw [utf8Valid_ascii hb] at hv
        rw [appendString_ascii hb] at hf2 ⊢
        by_cases hs : htmlSafeSet b = true
        · simp only [if_pos hs, List.length_append, List.length_singleton] at hf2
          rw [if_pos hs, List.append_assoc, List.singleton_append, unquote_plain hs,
            ih rest hv g1 g2 tail hg1 (by omega), prepend_some]
          rfl
        · have hl := escapeByte_length_pos b
          simp only [if_neg hs, List.length_append] at hf2
          rw [if_neg hs, List.append_assoc, unquote_escapeByte hb,
            ih rest hv g1 g2 tail hg1 (by omega), prepend_some]
          rfl
      · obtain ⟨hd, hv2⟩ := utf8Valid_multi hb k rest hv
        rcases DecodeRune_inv (by omega) hd with ⟨s1, t, rfl, h2⟩ | ⟨s1, s2, t, rfl, h3⟩ |
          ⟨s1, s2, s3, t, rfl, h4⟩
        · rw [DecodeRune_two h2] at hv2
          simp only [Nat.add_one_sub_one, List.drop_succ_cons, List.drop_zero] at hv2
          rw [appendString_two h2] at hf2 ⊢
          simp only [List.length_append, List.length_cons, List.length_nil] at hf2
          rw [List.append_assoc]
          show unquote (g2 + 1) (b :: s1 :: (appendString g1 t ++ 34 :: tail)) = _
          rw [unquote_two h2, ih t hv2 g1 g2 tail hg1 (by omega), prepend_some]
          rfl
        · rw [DecodeRune_three h3] at hv2
          simp only [Nat.add_one_sub_one, List.drop_succ_cons, List.drop_zero] at hv2
          rw [appendString_three h3] at hf2 ⊢
          split_ifs at hf2 ⊢ with hu
          · simp only [List.length_append, List.length_cons, List.length_nil] at hf2
            rw [List.append_assoc, unquote_u202 hu, ih t hv2 g1 g2 tail hg1 (by omega),
              prepend_some, EncodeRune_three h3]
            rfl
          · simp only [List.length_append, List.length_cons, List.length_nil] at hf2
            rw [List.append_assoc]
            show unquote (g2 + 1) (b :: s1 :: s2 :: (appendString g1 t ++ 34 :: tail)) = _
            rw [unquote_three h3, ih t hv2 g1 g2 tail hg1 (by omega), prepend_some]
            rfl
        · rw [DecodeRune_four h4] at hv2
          simp only [Nat.add_one_sub_one, List.drop_succ_cons, List.drop_zero] at hv2
          rw [appendString_four h4] at hf2 ⊢
          simp only [List.length_append, List.length_cons, List.length_nil] at hf2
          rw [List.append_assoc]
          show unquote (g2 + 1) (b :: s1 :: s2 :: s3 :: (appendString g1 t ++ 34 :: tail)) = _
          rw [unquote_four h4, ih t hv2 g1 g2 tail hg1 (by omega), prepend_some]
          rfl

theorem unquote_key : ∀ (key : GoString), (∀ b ∈ key, htmlSafeSet b = true) →
    ∀ (f : Nat) (tail : GoString), key.length < f →
      unquote f (key ++ 34 :: tail) = some (key, tail) := by
  intro key
  induction key with
  | nil =>
    intro _ f tail hf
    obtain ⟨g, rfl⟩ : ∃ g, f = g + 1 := ⟨f - 1, by simp at hf; omega⟩
    exact unquote_quote g tail
  | cons b key ih =>
    intro hk f tail hf
    obtain ⟨g, rfl⟩ : ∃ g, f = g + 1 := ⟨f - 1, by simp at hf; omega⟩
    have hb : htmlSafeSet b = true := hk b (by simp)
    have hk2 : ∀ c ∈ key, htmlSafeSet c = true := fun c hc => hk c (by simp [hc])
    simp only [List.length_cons] at hf
    rw [List.cons_append, unquote_plain hb, ih hk2 g tail (by omega), prepend_some]
    rfl

theorem encodeString_append (s tail : GoString) :
    encodeString s ++ tail = 34 :: (appendString s.length s ++ 34 :: tail) := by
  simp [encodeString]

theorem parseValue_encodeString {s : GoString} (hs : ValidUTF8 s) (fuel : Nat)
    (tail : GoString) :
    parseValue (fuel + 1) (encodeString s ++ tail) = some (JSON.string s, tail) := by
  rw [encodeString_append]
  have h := unquote_appendString s.length s hs s.length
    (appendString s.length s ++ 34 :: tail).length tail (le_refl _) (by simp)
  simp only [parseValue, if_true]
  rw [h]; rfl

theorem skipWS_quote (r : GoString) : skipWS (34 :: r) = 34 :: r := by
  simp [skipWS, isSpace]

theorem skipWS_colon (r : GoString) : skipWS (58 :: r) = 58 :: r := by
  simp [skipWS, isSpace]

theorem skipWS_comma (r : GoString) : skipWS (44 :: r) = 44 :: r := by
  simp [skipWS, isSpace]

theorem skipWS_rbrace (r : GoString) : skipWS (125 :: r) = 125 :: r := by
  simp [skipWS, isSpace]

theorem skipWS_rbracket (r : GoString) : skipWS (93 :: r) = 93 :: r := by
  simp [skipWS, isSpace]

theorem skipWS_lbrace (r : GoString) : skipWS (123 :: r) = 123 :: r := by
  simp [skipWS, isSpace]

theorem skipWS_encodeString (s tail : GoString) :
    skipWS (encodeString s ++ tail) = encodeString s ++ tail := by
  rw [encodeString_append]; exact skipWS_quote _

/-- One member `"key":value` followed by a closing brace, read by `parseMembers`. -/
theorem parseMembers_last (pv : GoString → Option (JSON × GoString)) (key : GoString)
    (hk : ∀ b ∈ key, htmlSafeSet b = true) (val tail : GoString) (v : JSON) (k : Nat)
    (hv : skipWS (val ++ 125 :: tail) = val ++ 125 :: tail)
    (hpv : pv (val ++ 125 :: tail) = some (v, 125 :: tail)) :
    parseMembers pv (k + 1) (34 :: (key ++ 34 :: 58 :: (val ++ 125 :: tail))) =
      some ([(key, v)], tail) := by
  have hu := unquote_key key hk (key ++ 34 :: 58 :: (val ++ 125 :: tail)).length
    (58 :: (val ++ 125 :: tail)) (by simp)
  simp only [parseMembers, if_true]
  rw [hu]
  simp only [skipWS_colon, if_true, hv, hpv, skipWS_rbrace]
  simp

/-- One member `"key":value` followed by a comma and further members. -/
theorem parseMembers_cons (pv : GoString → Option (JSON × GoString)) (key : GoString)
    (hk : ∀ b ∈ key, htmlSafeSet b = true) (val more : GoString) (v : JSON) (k : Nat)
    (hv : skipWS (val ++ 44 :: 34 :: more) = val ++ 44 :: 34 :: more)
    (hpv : pv (val ++ 44 :: 34 :: more) = some (v, 44 :: 34 :: more)) :
    parseMembers pv (k + 1) (34 :: (key ++ 34 :: 58 :: (val ++ 44 :: 34 :: more))) =
      (parseMembers pv k (34 :: more)).map (fun mr => ((key, v) :: mr.1, mr.2)) := by
  have hu := unquote_key key hk (key ++ 34 :: 58 :: (val ++ 44 :: 34 :: more)).length
    (58 :: (val ++ 44 :: 34 :: more)) (by simp)
  simp only [parseMembers, if_true]
  rw [hu]
  simp only [skipWS_colon, if_true, hv, hpv, skipWS_comma, skipWS_quote]

theorem parseValue_lbrace (fuel c1 : Nat) (r1 : GoString) (h : isSpace c1 = false)
    (h2 : c1 ≠ 125) :
    parseValue (fuel + 1) (123 :: c1 :: r1) =
      (parseMembers (parseValue fuel) (c1 :: r1).length (c1 :: r1)).map
        (fun mr => (JSON.object mr.1, mr.2)) := by
  simp only [parseValue, skipWS, h]
  simp only [if_true, Bool.false_eq_true, if_false, if_neg h2]
  simp

theorem parseValue_lbracket (fuel c1 : Nat) (r1 : GoString) (h : isSpace c1 = false)
    (h2 : c1 ≠ 93) :
    parseValue (fuel + 1) (91 :: c1 :: r1) =
      (parseElements (parseValue fuel) (c1 :: r1).length (c1 :: r1)).map
        (fun er => (JSON.array er.1, er.2)) := by
  simp only [parseValue, skipWS, h]
  simp only [if_true, Bool.false_eq_true, if_false, if_neg h2]
  simp

theorem encodeStat_append (st : stat) (tail : GoString) :
    encodeStat st ++ tail =
      123 :: 34 :: ([110, 97, 109, 101] ++ 34 :: 58 :: (encodeString st.Name ++ 125 :: tail)) := by
  have h : ascii "\x7b\"name\":" = [123, 34, 110, 97, 109, 101, 34, 58] := by decide
  simp [encodeStat, h]

theorem parseValue_encodeStat {st : stat} (hs : ValidUTF8 st.Name) (fuel : Nat)
    (tail : GoString) :
    parseValue (fuel + 2) (encodeStat st ++ tail) = some (st.toJSON, tail) := by
  rw [encodeStat_append]
  have hk : ∀ b ∈ ([110, 97, 109, 101] : GoString), htmlSafeSet b = true := by decide
  have hm := parseMembers_last (parseValue (fuel + 1)) [110, 97, 109, 101] hk
    (encodeString st.Name) tail (JSON.string st.Name)
    ([110, 97, 109, 101] ++ 34 :: 58 :: (encodeString st.Name ++ 125 :: tail)).length
    (skipWS_encodeString _ _) (parseValue_encodeString hs fuel _)
  have hn : ascii "name" = [110, 97, 109, 101] := by decide
  rw [parseValue_lbrace (fuel + 1) 34 _ (by decide) (by decide)]
  simp only [List.length_cons] at hm ⊢
  rw [hm]
  simp [stat.toJSON, hn]

theorem skipWS_encodeStat (st : stat) (tail : GoString) :
    skipWS (encodeStat st ++ tail) = encodeStat st ++ tail := by
  rw [encodeStat_append]; exact skipWS_lbrace _

theorem encodeElems_cons_cons (st st2 : stat) (sts : List stat) :
    encodeElems (st :: st2 :: sts) = encodeStat st ++ 44 :: encodeElems (st2 :: sts) := rfl

theorem parseElements_encodeElems (fuel : Nat) (tail : GoString) :
    ∀ (sts : List stat) (st : stat), (∀ x ∈ st :: sts, ValidUTF8 x.Name) →
      ∀ k, sts.length < k →
        parseElements (parseValue (fuel + 2)) k (encodeElems (st :: sts) ++ 93 :: tail) =
          some ((st :: sts).map stat.toJSON, tail) := by
  intro sts
  induction sts with
  | nil =>
    intro st hv k hk
    obtain ⟨g, rfl⟩ : ∃ g, k = g + 1 := ⟨k - 1, by simp at hk; omega⟩
    have h1 : encodeElems [st] = encodeStat st := rfl
    rw [h1]
    simp only [parseElements, parseValue_encodeStat (hv st (by simp)), skipWS_rbracket]
    simp
  | cons st2 sts ih =>
    intro st hv k hk
    obtain ⟨g, rfl⟩ : ∃ g, k = g + 1 := ⟨k - 1, by simp at hk; omega⟩
    simp only [List.length_cons] at hk
    rw [encodeElems_cons_cons, List.append_assoc, List.cons_append]
    simp only [parseElements, parseValue_encodeStat (hv st (by simp)), skipWS_comma, if_true]
    have hv2 : ∀ x ∈ st2 :: sts, ValidUTF8 x.Name := fun x hx => hv x (by simp [hx])
    have hsk : skipWS (encodeElems (st2 :: sts) ++ 93 :: tail) =
        encodeElems (st2 :: sts) ++ 93 :: tail := by
      cases sts with
      | nil => exact skipWS_encodeStat _ _
      | cons st3 sts =>
        rw [encodeElems_cons_cons, List.append_assoc]; exact skipWS_encodeStat _ _
    rw [hsk, ih st2 hv2 g (by omega)]
    simp

theorem encodeElems_cons_eq (st : stat) (sts : List stat) (tail : GoString) :
    ∃ r, encodeElems (st :: sts) ++ tail = 123 :: r := by
  cases sts with
  | nil => exact ⟨_, encodeStat_append st tail⟩
  | cons st2 sts =>
    rw [encodeElems_cons_cons, List.append_assoc]
    exact ⟨_, encodeStat_append st _⟩

theorem parseValue_encodeStats (fuel : Nat) (tail : GoString) :
    ∀ (l : Option (List stat)), (∀ x ∈ l.getD [], ValidUTF8 x.Name) →
      parseValue (fuel + 3) (encodeStats l ++ tail) = some (statsJSON l, tail) := by
  intro l hv
  have hnull : ascii "null" = [110, 117, 108, 108] := by decide
  cases l with
  | none =>
    simp [encodeStats, hnull, parseValue, scanLiteral, statsJSON]
  | some sts =>
    cases sts with
    | nil =>
      simp [encodeStats, encodeElems, parseValue, skipWS_rbracket, statsJSON]
    | cons st sts =>
      have hp := parseElements_encodeElems fuel tail sts st hv
      obtain ⟨r, hr⟩ := encodeElems_cons_eq st sts (93 :: tail)
      have hlen : sts.length < (encodeElems (st :: sts) ++ 93 :: tail).length := by
        clear hp hr
        induction sts generalizing st with
        | nil => simp
        | cons st2 sts ih =>
          have := ih st2 (fun x hx => hv x (by
            simp only [Option.getD_some, List.mem_cons] at hx ⊢
            rcases hx with h | h
            · exact Or.inr (Or.inl h)
            · exact Or.inr (Or.inr h)))
          rw [encodeElems_cons_cons]
          simp only [List.length_cons, List.length_append] at this ⊢
          omega
      have hp2 := hp _ hlen
      simp only [encodeStats, List.cons_append, List.append_assoc, List.singleton_append,
        List.nil_append]
      rw [hr] at hp2 ⊢
      rw [parseValue_lbracket (fuel + 2) 123 r (by decide) (by decide), hp2]
      simp [statsJSON]

theorem skipWS_encodeStats (l : Option (List stat)) (tail : GoString) :
    skipWS (encodeStats l ++ tail) = encodeStats l ++ tail := by
  have hnull : ascii "null" = [110, 117, 108, 108] := by decide
  cases l with
  | none => simp [encodeStats, hnull, skipWS, isSpace]
  | some sts => simp [encodeStats, skipWS, isSpace]

theorem body_eq (cr : connectRequest) :
    cr.body = 123 :: 34 :: (ascii "SUBSCRIBE" ++ 34 :: 58 :: (encodeStats cr.Subscribe ++
      44 :: 34 :: (ascii "UNSUBSCRIBE" ++ 34 :: 58 :: (encodeStats cr.Unsubscribe ++
      44 :: 34 :: (ascii "SESSION_ID" ++ 34 :: 58 :: (encodeString cr.SessionID ++
      125 :: [])))))) := by
  have h1 : ascii "\x7b\"SUBSCRIBE\":" = 123 :: 34 :: (ascii "SUBSCRIBE" ++ [34, 58]) := by
    decide
  have h2 : ascii ",\"UNSUBSCRIBE\":" = 44 :: 34 :: (ascii "UNSUBSCRIBE" ++ [34, 58]) := by
    decide
  have h3 : ascii ",\"SESSION_ID\":" = 44 :: 34 :: (ascii "SESSION_ID" ++ [34, 58]) := by
    decide
  simp only [connectRequest.body, h1, h2, h3, List.cons_append, List.append_assoc,
    List.nil_append]

theorem jsonMarshalConnectRequest_eq (cr : connectRequest) :
    jsonMarshalConnectRequest cr = .ok cr.body := rfl

theorem parseJSON_body (cr : connectRequest) (hv : cr.ValidUTF8) :
    parseJSON cr.body = some (JSON.object cr.members) := by
  obtain ⟨hv1, hv2, hv3⟩ := hv
  have hk1 : ∀ b ∈ ascii "SUBSCRIBE", htmlSafeSet b = true := by decide
  have hk2 : ∀ b ∈ ascii "UNSUBSCRIBE", htmlSafeSet b = true := by decide
  have hk3 : ∀ b ∈ ascii "SESSION_ID", htmlSafeSet b = true := by decide
  obtain ⟨f, hf⟩ : ∃ f, cr.body.length = f + 3 := by
    refine ⟨cr.body.length - 3, ?_⟩
    rw [body_eq]; simp only [List.length_cons, List.length_append]; omega
  have hs : skipWS cr.body = cr.body := by rw [body_eq]; exact skipWS_lbrace _
  unfold parseJSON
  rw [hs, hf]
  rw [body_eq]
  rw [parseValue_lbrace (f + 3) 34 _ (by decide) (by decide)]
  generalize hk : (34 :: (ascii "SUBSCRIBE" ++ 34 :: 58 :: (encodeStats cr.Subscribe ++
      44 :: 34 :: (ascii "UNSUBSCRIBE" ++ 34 :: 58 :: (encodeStats cr.Unsubscribe ++
      44 :: 34 :: (ascii "SESSION_ID" ++ 34 :: 58 :: (encodeString cr.SessionID ++
      125 :: []))))))).length = k
  obtain ⟨g, rfl⟩ : ∃ g, k = g + 3 := by
    refine ⟨k - 3, ?_⟩
    rw [← hk]; simp only [List.length_cons, List.length_append]; omega
  rw [parseMembers_cons (parseValue (f + 3)) (ascii "SUBSCRIBE") hk1 (encodeStats cr.Subscribe)
      _ (statsJSON cr.Subscribe) (g + 2) (skipWS_encodeStats _ _)
      (parseValue_encodeStats f _ cr.Subscribe hv1),
    parseMembers_cons (parseValue (f + 3)) (ascii "UNSUBSCRIBE") hk2
      (encodeStats cr.Unsubscribe) _ (statsJSON cr.Unsubscribe) (g + 1)
      (skipWS_encodeStats _ _) (parseValue_encodeStats f _ cr.Unsubscribe hv2),
    parseMembers_last (parseValue (f + 3)) (ascii "SESSION_ID") hk3
      (encodeString cr.SessionID) [] (JSON.string cr.SessionID) g (skipWS_encodeString _ _)
      (parseValue_encodeString hv3 (f + 2) _)]
  simp [skipWS, connectRequest.members]

theorem decodeStatElems_map (sts : List stat) :
    decodeStatElems (sts.map stat.toJSON) [] = ⟨none, sts⟩ := by
  have hn : foldName (ascii "name") = ascii "NAME" := by decide
  induction sts with
  | nil => rfl
  | cons st sts ih =>
    simp only [List.map_cons, decodeStatElems, List.tail_nil, ih, stat.toJSON, decodeStat,
      decodeStatMembers, hn, if_true, decodeString, saveError, List.headD_nil]

theorem decodeStats_statsJSON (l : Option (List stat)) :
    decodeStats (statsJSON l) none = ⟨none, l⟩ := by
  cases l with
  | none => rfl
  | some sts => simp [statsJSON, decodeStats, decodeStatElems_map]

theorem decode_members (cr : connectRequest) :
    decodeConnectRequestMembers cr.members ⟨none, none, []⟩ = ⟨none, cr⟩ := by
  have h1 : foldName (ascii "SUBSCRIBE") = ascii "SUBSCRIBE" := by decide
  have h2 : foldName (ascii "UNSUBSCRIBE") = ascii "UNSUBSCRIBE" := by decide
  have h3 : foldName (ascii "SESSION_ID") = ascii "SESSION_ID" := by decide
  have n1 : ascii "UNSUBSCRIBE" ≠ ascii "SUBSCRIBE" := by decide
  have n2 : ascii "SESSION_ID" ≠ ascii "SUBSCRIBE" := by decide
  have n3 : ascii "SESSION_ID" ≠ ascii "UNSUBSCRIBE" := by decide
  simp only [connectRequest.members, decodeConnectRequestMembers, h1, h2, h3, if_true,
    if_neg n1, if_neg n2, if_neg n3, decodeStats_statsJSON, decodeString, saveError]

theorem jsonUnmarshal_body (cr : connectRequest) (hv : cr.ValidUTF8) :
    jsonUnmarshalConnectRequest cr.body ⟨none, none, []⟩ = ⟨none, cr⟩ := by
  simp only [jsonUnmarshalConnectRequest, parseJSON_body cr hv, decode_members]

/-- The digits that `formatBits` puts in front of `acc` are the base-10 representation
of `n`: digits only, no leading zero except for zero itself, reading back to `n`. -/
theorem formatBits_spec : ∀ (fuel n : Nat) (acc : GoString), n < fuel →
    ∃ ds : GoString, formatBits fuel n acc = ds ++ acc ∧ ds ≠ [] ∧
      (∀ c ∈ ds, 48 ≤ c ∧ c ≤ 57) ∧ (ds.head? = some 48 → ds = [48]) ∧
      ds.foldl (fun a c => 10 * a + (c - 48)) 0 = n := by
  intro fuel
  induction fuel with
  | zero => intro n acc h; omega
  | succ fuel ih =>
    intro n acc h
    by_cases hn : n < 10
    · refine ⟨[48 + n], by simp [formatBits, hn], by simp, ?_, ?_, by simp⟩
      · intro c hc; simp at hc; omega
      · intro h0; simp at h0; simp [h0]
    · obtain ⟨ds, h1, h2, h3, h4, h5⟩ := ih (n / 10) ((48 + n % 10) :: acc) (by omega)
      refine ⟨ds ++ [48 + n % 10], by simp [formatBits, hn, h1], by simp, ?_, ?_, ?_⟩
      · intro c hc
        simp only [List.mem_append, List.mem_singleton] at hc
        rcases hc with hc | hc
        · exact h3 c hc
        · omega
      · intro h0
        exfalso
        cases ds with
        | nil => exact h2 rfl
        | cons d ds =>
          have hd : (d :: ds).head? = some 48 := by simpa using h0
          have := h4 hd
          rw [this] at h5
          simp at h5
          omega
      · rw [List.foldl_append, h5]
        simp only [List.foldl_cons, List.foldl_nil]
        omega

theorem Itoa_natCast (n : Nat) : Itoa (n : Int) = formatBits (n + 1) n [] := by
  simp [Itoa]

theorem Itoa_isDecimalOf (n : Nat) : IsDecimalOf (Itoa (n : Int)) n := by
  obtain ⟨ds, h1, h2, h3, h4, h5⟩ := formatBits_spec (n + 1) n [] (by omega)
  rw [Itoa_natCast, h1, List.append_nil]
  exact ⟨h2, h3, h4, h5⟩

theorem encodeElems_eq_intercalate (sts : List stat) :
    encodeElems sts = List.intercalate [44] (sts.map encodeStat) := by
  induction sts with
  | nil => rfl
  | cons st sts ih =>
    cases sts with
    | nil => simp [encodeElems, List.intercalate]
    | cons st2 sts =>
      rw [encodeElems_cons_cons, ih]
      simp [List.intercalate]

theorem marshalWS_eq_frame (cr : connectRequest) :
    marshalWS jsonMarshalConnectRequest cr = Itoa (cr.body.length : Int) ++ 10 :: cr.body := by
  simp [marshalWS, jsonMarshalConnectRequest_eq]

theorem body_ne_nil (cr : connectRequest) : cr.body.length ≠ 0 := by
  rw [body_eq]; simp

theorem dispatch_append (a b : GoMap GoString) :
    dispatch (a ++ b) = dispatch a ++ dispatch b := by
  induction a with
  | nil => rfl
  | cons e a ih =>
    obtain ⟨sn, sk⟩ := e
    show dispatchEntry sn sk ++ dispatch (a ++ b) = (dispatchEntry sn sk ++ dispatch a) ++ dispatch b
    rw [ih, List.append_assoc]

theorem topic_system_ne_export : ascii "system-stats" ≠ ascii "export" := by decide

theorem topic_system_ne_interfaces : ascii "system-stats" ≠ ascii "interfaces" := by decide

theorem topic_export_ne_interfaces : ascii "export" ≠ ascii "interfaces" := by decide

theorem dispatchEntry_system (sk : GoString) :
    dispatchEntry (ascii "system-stats") sk =
      logIfErr LogLine.unmarshalSystemStats (jsonUnmarshalSystemStat sk ⟨[], [], []⟩).err ++
        [Event.system (jsonUnmarshalSystemStat sk ⟨[], [], []⟩).target] := by
  unfold dispatchEntry; rw [if_pos rfl]

theorem dispatchEntry_export (sk : GoString) :
    dispatchEntry (ascii "export") sk =
      logIfErr LogLine.unmarshalExport (jsonUnmarshalDPIStat sk []).err ++
        [Event.dpi (jsonUnmarshalDPIStat sk []).target] := by
  unfold dispatchEntry; rw [if_neg topic_system_ne_export.symm, if_pos rfl]

theorem dispatchEntry_interfaces (sk : GoString) :
    dispatchEntry (ascii "interfaces") sk =
      logIfErr LogLine.unmarshalInterfaces (jsonUnmarshalInterfacesStat sk []).err ++
        [Event.interfaces (jsonUnmarshalInterfacesStat sk []).target] := by
  unfold dispatchEntry
  rw [if_neg topic_system_ne_interfaces.symm, if_neg topic_export_ne_interfaces.symm, if_pos rfl]

theorem expectedSend_system (sk : GoString) :
    expectedSend (ascii "system-stats") sk =
      some (Event.system (jsonUnmarshalSystemStat sk ⟨[], [], []⟩).target) := by
  unfold expectedSend; rw [if_pos rfl]

theorem expectedSend_export (sk : GoString) :
    expectedSend (ascii "export") sk = some (Event.dpi (jsonUnmarshalDPIStat sk []).target) := by
  unfold expectedSend; rw [if_neg topic_system_ne_export.symm, if_pos rfl]

theorem expectedSend_interfaces (sk : GoString) :
    expectedSend (ascii "interfaces") sk =
      some (Event.interfaces (jsonUnmarshalInterfacesStat sk []).target) := by
  unfold expectedSend
  rw [if_neg topic_system_ne_interfaces.symm, if_neg topic_export_ne_interfaces.symm, if_pos rfl]

theorem dispatchEntry_valid (sn sk : GoString) (hv : ValidPayload sn sk) :
    dispatchEntry sn sk = (expectedSend sn sk).toList := by
  obtain ⟨h1, h2, h3⟩ := hv
  by_cases c1 : sn = ascii "system-stats"
  · have h := h1 c1
    subst c1
    rw [dispatchEntry_system, expectedSend_system, h]; rfl
  · by_cases c2 : sn = ascii "export"
    · have h := h2 c2
      subst c2
      rw [dispatchEntry_export, expectedSend_export, h]; rfl
    · by_cases c3 : sn = ascii "interfaces"
      · have h := h3 c3
        subst c3
        rw [dispatchEntry_interfaces, expectedSend_interfaces, h]; rfl
      · unfold dispatchEntry expectedSend
        rw [if_neg c1, if_neg c2, if_neg c3, if_neg c1, if_neg c2, if_neg c3]; rfl

theorem dispatchEntry_failed (sn sk : GoString)
    (hrec : sn = ascii "system-stats" ∨ sn = ascii "export" ∨ sn = ascii "interfaces")
    (hfail : ¬ ValidPayload sn sk) :
    ∃ l v, expectedSend sn sk = some v ∧ dispatchEntry sn sk = [Event.log l, v] := by
  have d12 := topic_system_ne_export
  have d13 := topic_system_ne_interfaces
  have d23 := topic_export_ne_interfaces
  unfold ValidPayload at hfail
  rcases hrec with c | c | c
  · subst c
    have hne : (jsonUnmarshalSystemStat sk ⟨[], [], []⟩).err ≠ none := fun h =>
      hfail ⟨fun _ => h, fun h => absurd h d12, fun h => absurd h d13⟩
    obtain ⟨e, he⟩ := Option.ne_none_iff_exists'.mp hne
    exact ⟨_, _, expectedSend_system sk, by rw [dispatchEntry_system, he]; rfl⟩
  · subst c
    have hne : (jsonUnmarshalDPIStat sk []).err ≠ none := fun h =>
      hfail ⟨fun h => absurd h.symm d12, fun _ => h, fun h => absurd h d23⟩
    obtain ⟨e, he⟩ := Option.ne_none_iff_exists'.mp hne
    exact ⟨_, _, expectedSend_export sk, by rw [dispatchEntry_export, he]; rfl⟩
  · subst c
    have hne : (jsonUnmarshalInterfacesStat sk []).err ≠ none := fun h =>
      hfail ⟨fun h => absurd h.symm d13, fun h => absurd h.symm d23, fun _ => h⟩
    obtain ⟨e, he⟩ := Option.ne_none_iff_exists'.mp hne
    exact ⟨_, _, expectedSend_interfaces sk, by rw [dispatchEntry_interfaces, he]; rfl⟩

theorem atoiLoop_eq_digitsValue (s : GoString) (n : Nat) : atoiLoop s n = digitsValue s n := by
  induction s generalizing n with
  | nil => rfl
  | cons c s ih =>
    simp only [atoiLoop, digitsValue, ih, Nat.mul_comm n 10]

theorem digitsValue_ge : ∀ (s : GoString) (n v : Nat), digitsValue s n = some v → n ≤ v := by
  intro s
  induction s with
  | nil =>
    intro n v h
    simp only [digitsValue, Option.some.injEq] at h
    omega
  | cons c s ih =>
    intro n v h
    simp only [digitsValue] at h
    split_ifs at h with hc
    have := ih _ _ h
    omega

theorem parseUintLoop_digits : ∀ (s : GoString) (n v : Nat), digitsValue s n = some v →
    v < 2 ^ 64 → parseUintLoop s n = (v, none) := by
  intro s
  induction s with
  | nil =>
    intro n v h _
    simp only [digitsValue, Option.some.injEq] at h
    simp only [parseUintLoop, h]
  | cons c s ih =>
    intro n v h hv
    simp only [digitsValue] at h
    split_ifs at h with hc
    have hge := digitsValue_ge _ _ _ h
    have hlt : n * 10 + (c - 48) < 2 ^ 64 := by omega
    have hn : ¬ n ≥ (2 ^ 64 - 1) / 10 + 1 := by omega
    have hmod : (n * 10 + (c - 48)) % 2 ^ 64 = n * 10 + (c - 48) := Nat.mod_eq_of_lt hlt
    have hno : ¬ (n * 10 + (c - 48) < n * 10 ∨ n * 10 + (c - 48) > 2 ^ 64 - 1) := by omega
    simp only [parseUintLoop, if_pos hc, if_neg hn, hmod, if_neg hno]
    rw [Nat.mul_comm n 10]
    exact ih _ _ h hv

theorem digitsValue_ne_nil {s : GoString} {n : Nat} (hs : s ≠ []) (h : digitsValue s 0 = some n)
    (hn : n < 2 ^ 64) : ParseUint s = (n, none) := by
  unfold ParseUint
  rw [if_neg hs]
  exact parseUintLoop_digits s 0 n h hn

theorem map_cast_eq_some {o : Option Nat} {f : Nat → Int} {v : Int} (h : o.map f = some v) :
    ∃ n, o = some n ∧ f n = v := by
  cases o with
  | none => exact absurd h (by simp)
  | some n => exact ⟨n, rfl, by simpa using h⟩

theorem ParseInt_decimal (s : GoString) (v : Int) (h : decimalValue s = some v)
    (hlo : -(2 ^ 63) ≤ v) (hhi : v ≤ 2 ^ 63 - 1) : ParseInt s = (v, none) := by
  cases s with
  | nil => simp [decimalValue] at h
  | cons c r =>
    simp only [decimalValue] at h
    by_cases c45 : c = 45
    · subst c45
      rw [if_pos rfl] at h
      split_ifs at h with hr
      obtain ⟨n, hn, hv⟩ := map_cast_eq_some h
      subst hv
      have hu := digitsValue_ne_nil hr hn (by omega)
      simp [ParseInt, hu]
      omega
    · rw [if_neg c45] at h
      by_cases c43 : c = 43
      · subst c43
        rw [if_pos rfl] at h
        split_ifs at h with hr
        obtain ⟨n, hn, hv⟩ := map_cast_eq_some h
        subst hv
        have hu := digitsValue_ne_nil hr hn (by omega)
        simp [ParseInt, hu]
        omega
      · rw [if_neg c43] at h
        obtain ⟨n, hn, hv⟩ := map_cast_eq_some h
        subst hv
        have hu := digitsValue_ne_nil (List.cons_ne_nil c r) hn (by omega)
        have hs : (if c = 43 ∨ c = 45 then r else c :: r) = c :: r := by
          rw [if_neg]; omega
        simp [ParseInt, c43, c45, hu]
        omega

theorem Atoi_fast (c : Nat) (r : GoString) (h : (c :: r).length < 19) :
    Atoi (c :: r) =
      if (if c = 45 ∨ c = 43 then r else c :: r).length < 1 then (0, some .errSyntax)
      else
        match atoiLoop (if c = 45 ∨ c = 43 then r else c :: r) 0 with
        | none => (0, some .errSyntax)
        | some n => (if c = 45 then -(n : Int) else (n : Int), none) := by
  have hfast : 0 < (c :: r).length ∧ (c :: r).length < 19 := ⟨by simp, h⟩
  unfold Atoi
  rw [if_pos hfast]
  simp only [List.head?_cons, Option.some.injEq]

theorem Atoi_slow (s : GoString) (h : ¬ (0 < s.length ∧ s.length < 19)) :
    Atoi s = ParseInt s := by
  unfold Atoi
  rw [if_neg h]

theorem length_lt_one_of_ne_nil {r : GoString} (hr : ¬ r = []) : ¬ r.length < 1 := by
  cases r with
  | nil => exact absurd rfl hr
  | cons _ _ => simp

theorem Atoi_decimal (s : GoString) (v : Int) (h : decimalValue s = some v)
    (hlo : -(2 ^ 63) ≤ v) (hhi : v ≤ 2 ^ 63 - 1) : Atoi s = (v, none) := by
  by_cases hfast : 0 < s.length ∧ s.length < 19
  · cases s with
    | nil => simp [decimalValue] at h
    | cons c r =>
      rw [Atoi_fast c r hfast.2]
      simp only [decimalValue] at h
      by_cases c45 : c = 45
      · subst c45
        rw [if_pos rfl] at h
        split_ifs at h with hr
        obtain ⟨n, hn, hv⟩ := map_cast_eq_some h
        rw [if_pos (Or.inl rfl), if_neg (length_lt_one_of_ne_nil hr), atoiLoop_eq_digitsValue, hn]
        simp only [if_true, hv]
      · rw [if_neg c45] at h
        by_cases c43 : c = 43
        · subst c43
          rw [if_pos rfl] at h
          split_ifs at h with hr
          obtain ⟨n, hn, hv⟩ := map_cast_eq_some h
          rw [if_pos (Or.inr rfl), if_neg (length_lt_one_of_ne_nil hr), atoiLoop_eq_digitsValue,
            hn]
          simp only [if_neg c45, hv]
        · rw [if_neg c43] at h
          obtain ⟨n, hn, hv⟩ := map_cast_eq_some h
          have hs : ¬ (c = 45 ∨ c = 43) := by omega
          rw [if_neg hs, if_neg (length_lt_one_of_ne_nil (List.cons_ne_nil c r)),
            atoiLoop_eq_digitsValue, hn]
          simp only [if_neg c45, hv]
  · rw [Atoi_slow s hfast]
    exact ParseInt_decimal s v h hlo hhi

theorem ParseInt_errSyntax_zero (s : GoString) (h : (ParseInt s).2 = some .errSyntax) :
    (ParseInt s).1 = 0 := by
  cases s with
  | nil => rfl
  | cons c r =>
    simp only [ParseInt] at h ⊢
    split_ifs at h ⊢ <;> first | rfl | (exfalso; simp at h)

theorem Atoi_errSyntax_zero (s : GoString) (h : (Atoi s).2 = some .errSyntax) :
    (Atoi s).1 = 0 := by
  by_cases hfast : 0 < s.length ∧ s.length < 19
  · cases s with
    | nil => simp at hfast
    | cons c r =>
      rw [Atoi_fast c r hfast.2] at h ⊢
      generalize (if c = 45 ∨ c = 43 then r else c :: r) = s1 at h ⊢
      by_cases h1 : s1.length < 1
      · rw [if_pos h1]
      · rw [if_neg h1] at h ⊢
        cases ha : atoiLoop s1 0 with
        | none => rfl
        | some n => rw [ha] at h; simp at h
  · rw [Atoi_slow s hfast] at h ⊢
    exact ParseInt_errSyntax_zero s h

theorem Atoi_not_decimal (s : GoString) (hl : s.length < 19) (h : decimalValue s = none) :
    Atoi s = (0, some .errSyntax) := by
  cases s with
  | nil => rfl
  | cons c r =>
    rw [Atoi_fast c r hl]
    simp only [decimalValue] at h
    by_cases c45 : c = 45
    · subst c45
      rw [if_pos rfl] at h
      rw [if_pos (Or.inl rfl)]
      by_cases hr : r = []
      · subst hr; rfl
      · rw [if_neg hr] at h
        rw [if_neg (length_lt_one_of_ne_nil hr), atoiLoop_eq_digitsValue]
        cases hd : digitsValue r 0 with
        | none => rfl
        | some n => rw [hd] at h; simp at h
    · rw [if_neg c45] at h
      by_cases c43 : c = 43
      · subst c43
        rw [if_pos rfl] at h
        rw [if_pos (Or.inr rfl)]
        by_cases hr : r = []
        · subst hr; rfl
        · rw [if_neg hr] at h
          rw [if_neg (length_lt_one_of_ne_nil hr), atoiLoop_eq_digitsValue]
          cases hd : digitsValue r 0 with
          | none => rfl
          | some n => rw [hd] at h; simp at h
      · rw [if_neg c43] at h
        have hs : ¬ (c = 45 ∨ c = 43) := by omega
        rw [if_neg hs, if_neg (length_lt_one_of_ne_nil (List.cons_ne_nil c r)),
          atoiLoop_eq_digitsValue]
        cases hd : digitsValue (c :: r) 0 with
        | none => rfl
        | some n => rw [hd] at h; simp at h

theorem excessBits_small (fuel a : Nat) (h : a < 2 ^ 53) : excessBits fuel a = 0 := by
  cases fuel with
  | zero => rfl
  | succ f => simp only [excessBits, if_pos h]

theorem float64_exact (v : Int) (h : v.natAbs ≤ 2 ^ 53) : float64 v = v := by
  by_cases hlt : v.natAbs < 2 ^ 53
  · have h0 : ¬ (2 * 0 > 1 ∨ 2 * 0 = 1 ∧ v.natAbs % 2 = 1) := by omega
    unfold float64
    simp only [excessBits_small 64 _ hlt, pow_zero, Nat.div_one, Nat.mod_one, Nat.mul_one,
      if_neg h0]
    split_ifs <;> omega
  · have he : v.natAbs = 2 ^ 53 := by omega
    have hv : v = 2 ^ 53 ∨ v = -(2 ^ 53) := by omega
    rcases hv with rfl | rfl <;> decide

theorem Count_le_length (s : GoString) (sep : Nat) : Count s sep ≤ s.length := by
  induction s with
  | nil => simp [Count]
  | cons b s ih =>
    simp only [Count, List.length_cons]
    split_ifs <;> omega

theorem segments_ne_nil (sep : Nat) (s : GoString) : segments sep s ≠ [] := by
  cases s with
  | nil => simp [segments]
  | cons c s =>
    simp only [segments]
    split_ifs
    · simp
    · cases segments sep s <;> simp

theorem genSplit_Count (sep : Nat) (s : GoString) :
    genSplit sep (Count s sep) s = segments sep s := by
  induction s with
  | nil => simp [Count, genSplit, segments]
  | cons c s ih =>
    by_cases hc : c = sep
    · subst hc
      simp only [Count, if_true, segments]
      rw [Nat.add_comm 1, genSplit]
      simp only [IndexByte, if_true, List.take_zero, Nat.zero_add, List.drop_succ_cons,
        List.drop_zero, ih]
    · simp only [Count, if_neg hc, Nat.zero_add, segments]
      cases hk : Count s sep with
      | zero =>
        rw [hk] at ih
        simp only [genSplit] at ih ⊢
        rw [← ih]
      | succ k =>
        rw [hk] at ih
        simp only [genSplit, IndexByte, if_neg hc] at ih ⊢
        cases hi : IndexByte s sep with
        | none =>
          rw [hi] at ih
          simp only [Option.map_none'] at ih ⊢
          rw [← ih]
        | some m =>
          rw [hi] at ih
          simp only [Option.map_some', List.take_succ_cons, List.drop_succ_cons] at ih ⊢
          rw [← ih]

theorem Split_eq_segments (s : GoString) (sep : Nat) : Split s sep = segments sep s := by
  have h := Count_le_length s sep
  have hm : min (Count s sep + 1) (s.length + 1) - 1 = Count s sep := by omega
  unfold Split SplitN
  rw [if_neg (Nat.succ_ne_zero _), hm]
  exact genSplit_Count sep s

theorem segments_of_mem (sep : Nat) (s : GoString) (h : sep ∈ s) :
    ∃ t0 t1 rest, segments sep s = t0 :: t1 :: rest := by
  induction s with
  | nil => simp at h
  | cons c s ih =>
    by_cases hc : c = sep
    · subst hc
      simp only [segments, if_true]
      cases hs : segments c s with
      | nil => exact absurd hs (segments_ne_nil c s)
      | cons t1 rest => exact ⟨[], t1, rest, rfl⟩
    · have hmem : sep ∈ s := by
        rcases List.mem_cons.mp h with h1 | h1
        · exact absurd h1.symm hc
        · exact h1
      obtain ⟨t0, t1, rest, hs⟩ := ih hmem
      simp only [segments, if_neg hc, hs]
      exact ⟨_, _, _, rfl⟩

theorem WithLabelValues_three {a b c : GoString} (ha : ValidUTF8 a) (hb : ValidUTF8 b)
    (hc : ValidUTF8 c) : WithLabelValues 3 [a, b, c] = none := by
  unfold WithLabelValues
  rw [if_pos]
  refine ⟨rfl, ?_⟩
  intro l hl
  simp only [List.mem_cons, List.mem_singleton, List.not_mem_nil, or_false] at hl
  rcases hl with rfl | rfl | rfl <;> assumption

theorem WithLabelValues_two {a b : GoString} (ha : ValidUTF8 a) (hb : ValidUTF8 b) :
    WithLabelValues 2 [a, b] = none := by
  unfold WithLabelValues
  rw [if_pos]
  refine ⟨rfl, ?_⟩
  intro l hl
  simp only [List.mem_cons, List.mem_singleton, List.not_mem_nil, or_false] at hl
  rcases hl with rfl | rfl <;> assumption

theorem dpiCollectKeys_cons (ip k : GoString) (c : Counters) (a : GoMap Counters)
    (next : List Effect) (hk : 124 ∈ k) (hip : ValidUTF8 ip)
    (h1 : ValidUTF8 (pipeSegment k 1)) (h0 : ValidUTF8 (pipeSegment k 0)) :
    dpiCollectKeys ip ((k, c) :: a) next =
      dpiObservations ip k (Atoi c.RXBytes).1 (Atoi c.TXBytes).1 ++ dpiCollectKeys ip a next := by
  obtain ⟨t0, t1, rest, hs⟩ := segments_of_mem 124 k hk
  simp only [pipeSegment, hs, List.getD_cons_zero, List.getD_cons_succ] at h1 h0
  simp only [dpiCollectKeys, Split_eq_segments, dpiObservations, pipeSegment, hs, List.get?,
    List.getD_cons_zero, List.getD_cons_succ, List.cons_append, List.nil_append,
    WithLabelValues_three hip h1 h0]

/-- What `dpiCollectKeys` does on a map all of whose keys hold a `|` and give label
values that are valid UTF-8. -/
theorem dpiCollectKeys_eq (ip : GoString) (a : GoMap Counters) (next : List Effect)
    (hip : ValidUTF8 ip)
    (ha : ∀ f ∈ a, 124 ∈ f.1 ∧ ValidUTF8 (pipeSegment f.1 1) ∧ ValidUTF8 (pipeSegment f.1 0)) :
    dpiCollectKeys ip a next =
      a.flatMap (fun f => dpiObservations ip f.1 (Atoi f.2.RXBytes).1 (Atoi f.2.TXBytes).1) ++
        next := by
  induction a with
  | nil => rfl
  | cons f a ih =>
    obtain ⟨k, c⟩ := f
    obtain ⟨hk, h1, h0⟩ := ha (k, c) (List.mem_cons_self _ _)
    rw [dpiCollectKeys_cons ip k c a next hk hip h1 h0,
      ih (fun f hf => ha f (List.mem_cons_of_mem _ hf)), List.flatMap_cons, List.append_assoc]

/-- What `dpiCollectStat` does on a stat all of whose composite keys hold a `|` and all
of whose label values are valid UTF-8. -/
theorem dpiCollectStat_eq (s : DPIStat) (next : List Effect)
    (hs : ∀ e ∈ s, ValidUTF8 e.1 ∧ ∀ f ∈ e.2,
      124 ∈ f.1 ∧ ValidUTF8 (pipeSegment f.1 1) ∧ ValidUTF8 (pipeSegment f.1 0)) :
    dpiCollectStat s next =
      s.flatMap (fun e => e.2.flatMap (fun f =>
        dpiObservations e.1 f.1 (Atoi f.2.RXBytes).1 (Atoi f.2.TXBytes).1)) ++ next := by
  induction s with
  | nil => rfl
  | cons e s ih =>
    obtain ⟨ip, a⟩ := e
    obtain ⟨hip, ha⟩ := hs (ip, a) (List.mem_cons_self _ _)
    rw [dpiCollectStat, dpiCollectKeys_eq ip a _ hip ha,
      ih (fun e he => hs e (List.mem_cons_of_mem _ he)), List.flatMap_cons, List.append_assoc]

theorem interfacesCollectStat_cons (name : GoString) (iface : Iface) (s : InterfacesStat)
    (next : List Effect) (hn : ValidUTF8 name) (hm : ValidUTF8 iface.Mac) :
    interfacesCollectStat ((name, iface) :: s) next =
      Effect.set .interfacesReceivedBytes [name, iface.Mac]
          (float64 (Atoi iface.Stats.RXBytes).1) ::
        Effect.set .interfacesTransmittedBytes [name, iface.Mac]
          (float64 (Atoi iface.Stats.TXBytes).1) ::
        interfacesCollectStat s next := by
  simp only [interfacesCollectStat, WithLabelValues_two hn hm]

/-! ## Properties of the frame codec -/

/-- C3: a message `b` that starts with an opening brace, and the same message behind any
prefix `p` that holds no newline and does not start with an opening brace, followed by a
newline, are decoded alike: both calls return what `json.Unmarshal` returns on `b`, the
same error or success and the same target. The prefix is never compared with the length
of `b`. -/
theorem unmarshalWS_raw_and_framed_agree {ε τ : Type}
    (jsonUnmarshal : GoString → τ → Outcome ε τ) (b p : GoString) (t : τ)
    (hb : b.head? = some 123) (hp : 10 ∉ p) (hp0 : p.head? ≠ some 123) :
    unmarshalWS jsonUnmarshal b t = .returned (jsonUnmarshal b t).decode ∧
    unmarshalWS jsonUnmarshal (p ++ 10 :: b) t = unmarshalWS jsonUnmarshal b t := by
  cases b with
  | nil => simp at hb
  | cons b0 rest =>
    have h0 : b0 = 123 := by simpa using hb
    subst h0
    have h1 : unmarshalWS jsonUnmarshal (123 :: rest) t =
        .returned (jsonUnmarshal (123 :: rest) t).decode := by
      simp [unmarshalWS]
    refine ⟨h1, ?_⟩
    rw [unmarshalWS_framed jsonUnmarshal p (123 :: rest) t hp hp0, h1]
    simp

/-- Witness for C3: the body `{}` read raw and behind the prefix `7`, with a decoder that
stores the bytes it was given. -/
theorem unmarshalWS_raw_and_framed_agree_witness :
    ([123, 125] : GoString).head? = some 123 ∧ 10 ∉ ([55] : GoString) ∧
    ([55] : GoString).head? ≠ some 123 ∧
    unmarshalWS (fun d _ => (⟨none, d⟩ : Outcome Unit GoString)) [123, 125] [] =
      .returned ⟨none, [123, 125]⟩ ∧
    unmarshalWS (fun d _ => (⟨none, d⟩ : Outcome Unit GoString)) ([55] ++ 10 :: [123, 125]) [] =
      unmarshalWS (fun d _ => (⟨none, d⟩ : Outcome Unit GoString)) [123, 125] [] :=
  ⟨by decide, by decide, by decide,
    unmarshalWS_raw_and_framed_agree (fun d _ => (⟨none, d⟩ : Outcome Unit GoString))
      [123, 125] [55] [] (by decide) (by decide) (by decide)⟩

/-- C4: on a non-empty message that does not start with an opening brace and holds no
newline, `unmarshalWS` returns the framing error for one element, whose text is
"incorrect number of elements in websocket message: 1", and leaves the target as it was;
and whatever the message, a framing error returned by `unmarshalWS` reports the
count 1. -/
theorem unmarshalWS_one_element {ε τ : Type} (jsonUnmarshal : GoString → τ → Outcome ε τ)
    (render : ε → GoString) (data : GoString) (v : τ)
    (hne : data ≠ []) (h0 : data.head? ≠ some 123) (hnl : 10 ∉ data) :
    unmarshalWS jsonUnmarshal data v = .returned ⟨some (.elements 1), v⟩ ∧
    (WSError.elements 1 : WSError ε).Error render =
      ascii "incorrect number of elements in websocket message: 1" ∧
    ∀ (d : GoString) (w t : τ) (l : Nat),
      unmarshalWS jsonUnmarshal d w = .returned ⟨some (.elements l), t⟩ → l = 1 := by
  refine ⟨?_, by simp only [WSError.Error]; decide, ?_⟩
  · cases data with
    | nil => exact absurd rfl hne
    | cons d0 rest =>
      have hd : d0 ≠ 123 := fun e => h0 (by simp [e])
      rw [unmarshalWS_cons_ne _ _ _ _ hd, SplitN_two_of_not_mem hne hnl]
      simp
  · intro d w t l h
    cases d with
    | nil => simp [unmarshalWS] at h
    | cons d0 rest =>
      by_cases hd : d0 = 123
      · simp only [unmarshalWS, hd, if_true, Exec.returned.injEq, Outcome.decode] at h
        have := congrArg Outcome.err h
        cases he : (jsonUnmarshal (123 :: rest) w).err <;> simp [he] at this
      · rw [unmarshalWS_cons_ne _ _ _ _ hd] at h
        split at h
        · rename_i hlen
          simp only [Exec.returned.injEq, Outcome.mk.injEq, Option.some.injEq,
            WSError.elements.injEq] at h
          rcases SplitN_two_length (d0 :: rest) 10 with h1 | h2
          · omega
          · exact absurd h2 hlen
        · split at h
          · simp at h
          · simp only [Exec.returned.injEq, Outcome.decode] at h
            have := congrArg Outcome.err h
            cases he : (jsonUnmarshal ((SplitN (d0 :: rest) 10 2).getD 1 []) w).err <;>
              simp [he] at this

/-- Witness for C4: the message `foo`. -/
theorem unmarshalWS_one_element_witness :
    ascii "foo" ≠ [] ∧ (ascii "foo").head? ≠ some 123 ∧ 10 ∉ ascii "foo" ∧
    unmarshalWS (fun d _ => (⟨none, d⟩ : Outcome Unit GoString)) (ascii "foo") [] =
      .returned ⟨some (.elements 1), []⟩ :=
  ⟨by decide, by decide, by decide,
    (unmarshalWS_one_element (fun d _ => (⟨none, d⟩ : Outcome Unit GoString)) (fun _ => [])
      (ascii "foo") [] (by decide) (by decide) (by decide)).1⟩

/-- C5: on a message made of a prefix `p` that holds no newline and does not start with
an opening brace, followed by one newline and nothing else, `unmarshalWS` returns no
error and leaves the target exactly as it was, whatever `p` is. -/
theorem unmarshalWS_empty_body {ε τ : Type} (jsonUnmarshal : GoString → τ → Outcome ε τ)
    (p : GoString) (v : τ) (hp : 10 ∉ p) (hp0 : p.head? ≠ some 123) :
    unmarshalWS jsonUnmarshal (p ++ [10]) v = .returned ⟨none, v⟩ := by
  rw [unmarshalWS_framed jsonUnmarshal p [] v hp hp0]
  simp

/-- Witness for C5: the message `3` followed by a newline, with a zero-valued
`connectRequest` as target and a decoder that would report an error if it were called. -/
theorem unmarshalWS_empty_body_witness :
    10 ∉ ascii "3" ∧ (ascii "3").head? ≠ some 123 ∧
    unmarshalWS (fun _ (t : connectRequest) => (⟨some (), t⟩ : Outcome Unit connectRequest))
      (ascii "3" ++ [10]) ⟨none, none, []⟩ = .returned ⟨none, ⟨none, none, []⟩⟩ :=
  ⟨by decide, by decide,
    unmarshalWS_empty_body
      (fun _ (t : connectRequest) => (⟨some (), t⟩ : Outcome Unit connectRequest))
      (ascii "3") ⟨none, none, []⟩ (by decide) (by decide)⟩

/-- C2: for every `connectRequest` `v`, `json.Marshal` succeeds with the body `B`, and
`marshalWS` returns `D`, a newline and `B`, where `D` is the base-10 representation of
the byte length of `B`; `B` is the object with the fields `SUBSCRIBE`, `UNSUBSCRIBE`,
`SESSION_ID` in that order, a nil list written `null`, a list written as its topics
between brackets and separated by commas, each topic as an object with the one field
`name`. The request subscribing to foo and bar with session id baz gives the 83-byte
body of the test. -/
theorem marshalWS_connectRequest (v : connectRequest) :
    jsonMarshalConnectRequest v = .ok v.body ∧
    marshalWS jsonMarshalConnectRequest v = Itoa (v.body.length : Int) ++ 10 :: v.body ∧
    IsDecimalOf (Itoa (v.body.length : Int)) v.body.length ∧
    v.body = ascii "\x7b\"SUBSCRIBE\":" ++ encodeStats v.Subscribe ++
      ascii ",\"UNSUBSCRIBE\":" ++ encodeStats v.Unsubscribe ++
      ascii ",\"SESSION_ID\":" ++ encodeString v.SessionID ++ ascii "\x7d" ∧
    encodeStats none = ascii "null" ∧
    (∀ sts : List stat, encodeStats (some sts) =
      ascii "[" ++ List.intercalate (ascii ",") (sts.map encodeStat) ++ ascii "]") ∧
    (∀ st : stat, encodeStat st =
      ascii "\x7b\"name\":" ++ encodeString st.Name ++ ascii "\x7d") ∧
    marshalWS jsonMarshalConnectRequest
        ⟨some [⟨ascii "foo"⟩, ⟨ascii "bar"⟩], none, ascii "baz"⟩ =
      ascii ("83\n\x7b\"SUBSCRIBE\":[\x7b\"name\":\"foo\"\x7d,\x7b\"name\":\"bar\"\x7d]," ++
        "\"UNSUBSCRIBE\":null,\"SESSION_ID\":\"baz\"\x7d") := by
  refine ⟨rfl, marshalWS_eq_frame v, Itoa_isDecimalOf _, rfl, rfl, ?_, fun _ => rfl,
    by decide⟩
  intro sts
  have h1 : ascii "[" = [91] := by decide
  have h2 : ascii "]" = [93] := by decide
  have h3 : ascii "," = [44] := by decide
  simp [encodeStats, encodeElems_eq_intercalate, h1, h2, h3]

/-- C1, as it fails: a session id that is not well-formed UTF-8, here the single byte
0xFF, is written as the escape of U+FFFD and read back as the three bytes of U+FFFD, so
the decoded request differs from the encoded one. -/
theorem roundtrip_fails_on_invalid_utf8 :
    unmarshalWS jsonUnmarshalConnectRequest
        (marshalWS jsonMarshalConnectRequest ⟨none, none, [255]⟩) ⟨none, none, []⟩ =
      .returned ⟨none, ⟨none, none, [239, 191, 189]⟩⟩ ∧
    (⟨none, none, [239, 191, 189]⟩ : connectRequest) ≠ ⟨none, none, [255]⟩ := by
  decide

/-- C1, amended: for every `connectRequest` whose strings are well-formed UTF-8,
`unmarshalWS` applied to the frame that `marshalWS` built, with a zero-valued target,
returns no error and leaves the target equal to the request. -/
theorem marshalWS_roundtrip (cr : connectRequest) (hv : cr.ValidUTF8) :
    unmarshalWS jsonUnmarshalConnectRequest (marshalWS jsonMarshalConnectRequest cr)
      ⟨none, none, []⟩ = .returned ⟨none, cr⟩ := by
  obtain ⟨_, hd, _, _⟩ := Itoa_isDecimalOf cr.body.length
  have h10 : 10 ∉ Itoa (cr.body.length : Int) := fun h => by
    have := hd 10 h; omega
  have h123 : (Itoa (cr.body.length : Int)).head? ≠ some 123 := fun h => by
    have := hd 123 (List.mem_of_mem_head? h); omega
  rw [marshalWS_eq_frame,
    unmarshalWS_framed jsonUnmarshalConnectRequest _ cr.body _ h10 h123,
    if_neg (body_ne_nil cr), jsonUnmarshal_body cr hv]
  rfl

/-- Witness for C1: a request with two topics, one of them holding a quote, a line feed
and a two-byte rune, and the list of topics to drop empty but not nil. -/
theorem marshalWS_roundtrip_witness :
    (⟨some [⟨ascii "foo"⟩, ⟨[34, 10, 195, 169]⟩], some [], ascii "baz"⟩ :
      connectRequest).ValidUTF8 ∧
    unmarshalWS jsonUnmarshalConnectRequest
      (marshalWS jsonMarshalConnectRequest
        ⟨some [⟨ascii "foo"⟩, ⟨[34, 10, 195, 169]⟩], some [], ascii "baz"⟩)
      ⟨none, none, []⟩ =
      .returned ⟨none, ⟨some [⟨ascii "foo"⟩, ⟨[34, 10, 195, 169]⟩], some [], ascii "baz"⟩⟩ :=
  ⟨by decide, marshalWS_roundtrip _ (by decide)⟩

/-! ## Properties of the read loop -/

/-- C6: for every envelope whose entries of a recognized topic carry payloads that
decode without error, in whatever order `range` visits them, the events of the loop
over the entries are exactly one send per entry named `system-stats`, `export` or
`interfaces`, on the channel of that topic and of the value decoded from that entry's
payload, and nothing for an entry of any other name: no other send, no log line. -/
theorem dispatch_valid (rm : GoMap GoString) (hv : ∀ e ∈ rm, ValidPayload e.1 e.2) :
    dispatch rm = rm.filterMap (fun e => expectedSend e.1 e.2) := by
  induction rm with
  | nil => rfl
  | cons e rm ih =>
    obtain ⟨sn, sk⟩ := e
    have h1 := dispatchEntry_valid sn sk (hv (sn, sk) (List.mem_cons_self _ _))
    have h2 := ih (fun e he => hv e (List.mem_cons_of_mem _ he))
    rw [dispatch, h1, h2, List.filterMap_cons]
    cases expectedSend sn sk <;> rfl

/-- Witness for C6: the envelope with a valid `system-stats` entry and an entry
`unknown-topic` yields one system value and nothing else, also when it is read from
the bytes of a message. -/
theorem dispatch_valid_witness :
    (∀ e ∈ ([(ascii "system-stats", ascii "\x7b\"cpu\":\"1\",\"uptime\":\"2\",\"mem\":\"3\"\x7d"),
        (ascii "unknown-topic", ascii "\x7b\"a\": 1\x7d")] : GoMap GoString),
      ValidPayload e.1 e.2) ∧
    dispatch [(ascii "system-stats", ascii "\x7b\"cpu\":\"1\",\"uptime\":\"2\",\"mem\":\"3\"\x7d"),
        (ascii "unknown-topic", ascii "\x7b\"a\": 1\x7d")] =
      [Event.system ⟨ascii "1", ascii "2", ascii "3"⟩] ∧
    readRound id (ascii ("\x7b\"system-stats\": \x7b\"cpu\":\"1\",\"uptime\":\"2\",\"mem\":\"3\"\x7d, " ++
        "\"unknown-topic\": \x7b\"a\": 1\x7d\x7d")) =
      .returned [Event.system ⟨ascii "1", ascii "2", ascii "3"⟩] :=
  ⟨by decide, (dispatch_valid _ (by decide)).trans (by decide), by decide⟩

/-- C7, as it fails: the payload `5` of a `system-stats` entry does not decode into a
`SystemStat`, and the loop logs the error and sends the zero-valued stat on the system
channel; a payload that fails half-way is sent partially decoded. -/
theorem dispatch_sends_after_failed_decode :
    ¬ ValidPayload (ascii "system-stats") (ascii "5") ∧
    dispatch [(ascii "system-stats", ascii "5")] =
      [Event.log (LogLine.unmarshalSystemStats JsonError.unmarshalType),
        Event.system ⟨[], [], []⟩] ∧
    readRound id (ascii "\x7b\"system-stats\": \x7b\"cpu\":\"7\",\"mem\":3\x7d\x7d") =
      .returned [Event.log (LogLine.unmarshalSystemStats JsonError.unmarshalType),
        Event.system ⟨ascii "7", [], []⟩] := by
  decide

/-- C7, amended: for every envelope entry with a recognized topic name whose payload
fails to decode into the stat of that topic, the loop logs the failure and still sends
one value for it on the channel of the topic, the stat as the failed decoding left it;
it then goes on to the remaining entries, and to the remaining messages. -/
theorem dispatch_failed_entry (visit : GoMap GoString → GoMap GoString)
    (pre post : GoMap GoString) (sn sk : GoString)
    (hrec : sn = ascii "system-stats" ∨ sn = ascii "export" ∨ sn = ascii "interfaces")
    (hfail : ¬ ValidPayload sn sk) :
    (∃ l v, expectedSend sn sk = some v ∧
      dispatch (pre ++ (sn, sk) :: post) = dispatch pre ++ [Event.log l, v] ++ dispatch post) ∧
    ∀ (m : GoString) (rest : List (Option GoString)) (evs : List Event),
      readRound visit m = .returned evs → read visit (some m :: rest) = evs ++ read visit rest := by
  constructor
  · obtain ⟨l, v, h1, h2⟩ := dispatchEntry_failed sn sk hrec hfail
    refine ⟨l, v, h1, ?_⟩
    rw [dispatch_append, dispatch, h2]
    simp only [List.append_assoc]
  · intro m rest evs h
    simp only [read, h]

/-- Witness for C7: an `export` entry whose payload is an array, between two entries
that decode. -/
theorem dispatch_failed_entry_witness :
    (ascii "export" = ascii "system-stats" ∨ ascii "export" = ascii "export" ∨
      ascii "export" = ascii "interfaces") ∧
    ¬ ValidPayload (ascii "export") (ascii "[]") ∧
    ((∃ l v, expectedSend (ascii "export") (ascii "[]") = some v ∧
      dispatch ([(ascii "interfaces", ascii "\x7b\x7d")] ++ (ascii "export", ascii "[]") ::
          [(ascii "system-stats", ascii "null")]) =
        dispatch [(ascii "interfaces", ascii "\x7b\x7d")] ++ [Event.log l, v] ++
          dispatch [(ascii "system-stats", ascii "null")]) ∧
    ∀ (m : GoString) (rest : List (Option GoString)) (evs : List Event),
      readRound id m = .returned evs → read id (some m :: rest) = evs ++ read id rest) :=
  ⟨by decide, by decide, dispatch_failed_entry id _ _ _ _ (by decide) (by decide)⟩

/-! ## Properties of the shutdown -/

/-- C8, as the code breaks it: when the caller runs the stop function before either
goroutine has reached its `wg.Add(1)`, `wg.Wait()` finds the counter at zero and stop
returns while neither loop has exited; `keepAlive` then registers and issues a heartbeat
request after stop has returned. -/
theorem stop_returns_before_workers_exit :
    run Sub.init [.stopClose, .stopWait] =
      some ⟨true, 0, .returned, .start, .start, 0, 0, none⟩ ∧
    run Sub.init [.stopClose, .stopWait, .keepAdd, .keepRequest] =
      some ⟨true, 1, .returned, .selecting, .start, 1, 0, none⟩ := by
  decide

/-- C11, as the code breaks it: after a failed `ReadMessage` the read loop has closed
`doneCh` and exited, and the stop function then closes the closed channel, which
panics; so does the failed read that comes after stop has closed the channel. -/
theorem stop_after_read_error_closes_twice :
    run Sub.init [.readAdd, .readCheck, .readError] =
      some ⟨true, 0, .idle, .start, .exited, 0, 0, none⟩ ∧
    run Sub.init [.readAdd, .readCheck, .readError, .stopClose] =
      some ⟨true, 0, .idle, .start, .exited, 0, 0, some .closeOfClosedChannel⟩ ∧
    run Sub.init [.readAdd, .readCheck, .stopClose, .readError] =
      some ⟨true, 1, .waiting, .start, .reading, 0, 0, some .closeOfClosedChannel⟩ := by
  decide

/-- C12, as the code breaks it: on the empty input the inspection of the first byte
`data[0]` is out of range and `unmarshalWS` panics instead of returning the framing
error, which takes the read loop down with it; on every other input `unmarshalWS`
returns. -/
theorem unmarshalWS_empty_panics {ε τ : Type} (jsonUnmarshal : GoString → τ → Outcome ε τ)
    (v : τ) :
    unmarshalWS jsonUnmarshal [] v = .panicked .indexOutOfRange ∧
    (∀ data : GoString, data ≠ [] → ∃ o, unmarshalWS jsonUnmarshal data v = .returned o) ∧
    ∀ (visit : GoMap GoString → GoMap GoString) (rest : List (Option GoString)),
      read visit (some [] :: rest) = [Event.panic .indexOutOfRange] := by
  refine ⟨rfl, ?_, fun _ _ => rfl⟩
  intro data hd
  cases data with
  | nil => exact absurd rfl hd
  | cons d0 tl =>
    simp only [unmarshalWS]
    split_ifs <;> exact ⟨_, rfl⟩

/-! ## Properties of the collectors -/

/-- C9, as it fails: a counter that is a decimal integer string beyond the range of a
64-bit `int` is recorded as the largest `int`, as a double 2^63; a counter beyond 2^53
is recorded rounded to a double; when `range` comes to a key without `|` first, `t[1]`
is out of range and the collector panics before it sets anything for the key `web|http`
of the same client; and a client address that is not valid UTF-8 makes
`WithLabelValues` panic before anything is set. -/
theorem dpiCollect_clamps_rounds_panics :
    decimalValue (ascii "99999999999999999999") = some 99999999999999999999 ∧
    dpiCollectStat [(ascii "192.168.1.5",
        [(ascii "web|http", ⟨ascii "99999999999999999999", ascii "9007199254740993"⟩)])] [] =
      [Effect.set .dpiReceivedBytes [ascii "192.168.1.5", ascii "http", ascii "web"]
          9223372036854775808,
        Effect.set .dpiTransmittedBytes [ascii "192.168.1.5", ascii "http", ascii "web"]
          9007199254740992] ∧
    dpiCollectStat [(ascii "192.168.1.5",
        [(ascii "x", ⟨ascii "1", ascii "2"⟩), (ascii "web|http", ⟨ascii "100", ascii "200"⟩)])] [] =
      [Effect.panic .indexOutOfRange] ∧
    dpiCollectStat [([255], [(ascii "web|http", ⟨ascii "1", ascii "2"⟩)])] [] =
      [Effect.panic .invalidLabelValue] := by
  decide

/-- C9, amended: for every DPI stat all of whose composite keys hold a `|` and all of
whose label values (the client addresses, the first two segments of the keys) are valid
UTF-8, every client address `ip` in it and every composite key `k` of that client, with
counters that are decimal integer strings of values `rx` and `tx` within the range of a
64-bit `int`, the collector sets the received-bytes gauge to the double nearest to `rx`
and right after it the transmitted-bytes gauge to the double nearest to `tx`, both under
the labels `ip`, second segment of `k`, first segment of `k`, and it does not panic;
the double is the integer itself when its magnitude is at most 2^53. -/
theorem dpiCollect_sets (s : DPIStat)
    (hs : ∀ e ∈ s, ValidUTF8 e.1 ∧ ∀ f ∈ e.2,
      124 ∈ f.1 ∧ ValidUTF8 (pipeSegment f.1 1) ∧ ValidUTF8 (pipeSegment f.1 0))
    (ip : GoString) (a : GoMap Counters) (hip : (ip, a) ∈ s)
    (k : GoString) (c : Counters) (hk : (k, c) ∈ a)
    (rx tx : Int) (hrx : decimalValue c.RXBytes = some rx)
    (htx : decimalValue c.TXBytes = some tx)
    (hrxr : -(2 ^ 63) ≤ rx ∧ rx ≤ 2 ^ 63 - 1) (htxr : -(2 ^ 63) ≤ tx ∧ tx ≤ 2 ^ 63 - 1) :
    (∃ pre post, dpiCollectStat s [] = pre ++
      [Effect.set .dpiReceivedBytes [ip, pipeSegment k 1, pipeSegment k 0] (float64 rx),
        Effect.set .dpiTransmittedBytes [ip, pipeSegment k 1, pipeSegment k 0] (float64 tx)] ++
      post) ∧
    (∀ p, Effect.panic p ∉ dpiCollectStat s []) ∧
    (rx.natAbs ≤ 2 ^ 53 → float64 rx = rx) ∧ (tx.natAbs ≤ 2 ^ 53 → float64 tx = tx) := by
  refine ⟨?_, ?_, float64_exact rx, float64_exact tx⟩
  · obtain ⟨s1, s2, rfl⟩ := List.append_of_mem hip
    obtain ⟨a1, a2, rfl⟩ := List.append_of_mem hk
    rw [dpiCollectStat_eq _ _ hs]
    simp only [List.flatMap_append, List.flatMap_cons, Atoi_decimal _ _ hrx hrxr.1 hrxr.2,
      Atoi_decimal _ _ htx htxr.1 htxr.2, List.append_nil]
    generalize s1.flatMap _ = x1
    generalize s2.flatMap _ = x2
    generalize a1.flatMap _ = y1
    generalize a2.flatMap _ = y2
    exact ⟨x1 ++ y1, y2 ++ x2, by simp only [dpiObservations, List.append_assoc]⟩
  · intro p hp
    rw [dpiCollectStat_eq _ _ hs, List.append_nil] at hp
    obtain ⟨e, _, he⟩ := List.mem_flatMap.mp hp
    obtain ⟨f, _, hf⟩ := List.mem_flatMap.mp he
    simp [dpiObservations] at hf

/-- Witness for C9: the stat of the example gives 100 and 200 under the labels
`192.168.1.5`, `http`, `web`. -/
theorem dpiCollect_sets_witness :
    pipeSegment (ascii "web|http") 1 = ascii "http" ∧
    pipeSegment (ascii "web|http") 0 = ascii "web" ∧
    float64 100 = 100 ∧ float64 200 = 200 ∧
    dpiCollectStat
      [(ascii "192.168.1.5", [(ascii "web|http", ⟨ascii "100", ascii "200"⟩)])] [] =
      [Effect.set .dpiReceivedBytes [ascii "192.168.1.5", ascii "http", ascii "web"] 100,
        Effect.set .dpiTransmittedBytes [ascii "192.168.1.5", ascii "http", ascii "web"] 200] ∧
    ((∃ pre post, dpiCollectStat
        [(ascii "192.168.1.5", [(ascii "web|http", ⟨ascii "100", ascii "200"⟩)])] [] = pre ++
      [Effect.set .dpiReceivedBytes [ascii "192.168.1.5", pipeSegment (ascii "web|http") 1,
          pipeSegment (ascii "web|http") 0] (float64 100),
        Effect.set .dpiTransmittedBytes [ascii "192.168.1.5", pipeSegment (ascii "web|http") 1,
          pipeSegment (ascii "web|http") 0] (float64 200)] ++
      post) ∧
    (∀ p, Effect.panic p ∉ dpiCollectStat
        [(ascii "192.168.1.5", [(ascii "web|http", ⟨ascii "100", ascii "200"⟩)])] []) ∧
    ((100 : Int).natAbs ≤ 2 ^ 53 → float64 100 = 100) ∧
    ((200 : Int).natAbs ≤ 2 ^ 53 → float64 200 = 200)) :=
  ⟨by decide, by decide, by decide, by decide, by decide,
    dpiCollect_sets [(ascii "192.168.1.5", [(ascii "web|http", ⟨ascii "100", ascii "200"⟩)])]
      (by decide) (ascii "192.168.1.5") [(ascii "web|http", ⟨ascii "100", ascii "200"⟩)]
      (by decide) (ascii "web|http") ⟨ascii "100", ascii "200"⟩ (by decide) 100 200
      (by decide) (by decide) (by decide) (by decide)⟩

/-- C10, as it fails: `strconv.Atoi` reports a syntax error on the cpu field `abc`,
the collector drops the error and sets the cpu gauge to 0. -/
theorem systemCollect_records_zero :
    decimalValue (ascii "abc") = none ∧
    Atoi (ascii "abc") = (0, some .errSyntax) ∧
    systemCollectStat ⟨ascii "abc", ascii "12", ascii "34"⟩ =
      [Effect.set .systemCpuPercent [] 0, Effect.set .systemUptimeSeconds [] 12,
        Effect.set .systemMemoryPercent [] 34] := by
  decide

/-- C10, amended: for every string `bad` on which `strconv.Atoi` reports a syntax
error, and in particular for every string of fewer than 19 bytes that is not an
optional sign followed by one decimal digit or more, `Atoi` returns 0 with the syntax
error and each collector records the value 0 for the field that holds `bad`: the system
cpu, uptime and mem, the DPI rx_bytes and tx_bytes (under a key that holds a `|`), the
interface rx_bytes and tx_bytes, the last four where the label values are valid UTF-8. -/
theorem collect_syntax_error_records_zero (bad : GoString)
    (hbad : (Atoi bad).2 = some .errSyntax ∨ (bad.length < 19 ∧ decimalValue bad = none)) :
    Atoi bad = (0, some .errSyntax) ∧
    (∀ u m : GoString, systemCollectStat ⟨bad, u, m⟩ =
      [Effect.set .systemCpuPercent [] 0,
        Effect.set .systemUptimeSeconds [] (float64 (Atoi u).1),
        Effect.set .systemMemoryPercent [] (float64 (Atoi m).1)]) ∧
    (∀ c m : GoString, systemCollectStat ⟨c, bad, m⟩ =
      [Effect.set .systemCpuPercent [] (float64 (Atoi c).1),
        Effect.set .systemUptimeSeconds [] 0,
        Effect.set .systemMemoryPercent [] (float64 (Atoi m).1)]) ∧
    (∀ c u : GoString, systemCollectStat ⟨c, u, bad⟩ =
      [Effect.set .systemCpuPercent [] (float64 (Atoi c).1),
        Effect.set .systemUptimeSeconds [] (float64 (Atoi u).1),
        Effect.set .systemMemoryPercent [] 0]) ∧
    (∀ (ip k other : GoString) (a : GoMap Counters) (next : List Effect), 124 ∈ k →
      ValidUTF8 ip → ValidUTF8 (pipeSegment k 1) → ValidUTF8 (pipeSegment k 0) →
      dpiCollectKeys ip ((k, ⟨bad, other⟩) :: a) next =
        Effect.set .dpiReceivedBytes [ip, pipeSegment k 1, pipeSegment k 0] 0 ::
          Effect.set .dpiTransmittedBytes [ip, pipeSegment k 1, pipeSegment k 0]
            (float64 (Atoi other).1) :: dpiCollectKeys ip a next) ∧
    (∀ (ip k other : GoString) (a : GoMap Counters) (next : List Effect), 124 ∈ k →
      ValidUTF8 ip → ValidUTF8 (pipeSegment k 1) → ValidUTF8 (pipeSegment k 0) →
      dpiCollectKeys ip ((k, ⟨other, bad⟩) :: a) next =
        Effect.set .dpiReceivedBytes [ip, pipeSegment k 1, pipeSegment k 0]
            (float64 (Atoi other).1) ::
          Effect.set .dpiTransmittedBytes [ip, pipeSegment k 1, pipeSegment k 0] 0 ::
          dpiCollectKeys ip a next) ∧
    (∀ (name mac other : GoString) (s : InterfacesStat) (next : List Effect),
      ValidUTF8 name → ValidUTF8 mac →
      interfacesCollectStat ((name, ⟨mac, ⟨bad, other⟩⟩) :: s) next =
        Effect.set .interfacesReceivedBytes [name, mac] 0 ::
          Effect.set .interfacesTransmittedBytes [name, mac] (float64 (Atoi other).1) ::
          interfacesCollectStat s next) ∧
    (∀ (name mac other : GoString) (s : InterfacesStat) (next : List Effect),
      ValidUTF8 name → ValidUTF8 mac →
      interfacesCollectStat ((name, ⟨mac, ⟨other, bad⟩⟩) :: s) next =
        Effect.set .interfacesReceivedBytes [name, mac] (float64 (Atoi other).1) ::
          Effect.set .interfacesTransmittedBytes [name, mac] 0 ::
          interfacesCollectStat s next) := by
  have ha : Atoi bad = (0, some .errSyntax) := by
    rcases hbad with h | h
    · exact Prod.ext (Atoi_errSyntax_zero bad h) h
    · exact Atoi_not_decimal bad h.1 h.2
  have h0 : float64 (Atoi bad).1 = 0 := by
    rw [ha]; decide
  refine ⟨ha, ?_, ?_, ?_, ?_, ?_, ?_, ?_⟩
  · intro u m; simp only [systemCollectStat, h0]
  · intro c m; simp only [systemCollectStat, h0]
  · intro c u; simp only [systemCollectStat, h0]
  · intro ip k other a next hk hip h1 h2
    rw [dpiCollectKeys_cons ip k _ a next hk hip h1 h2]
    simp only [dpiObservations, h0, List.cons_append, List.nil_append]
  · intro ip k other a next hk hip h1 h2
    rw [dpiCollectKeys_cons ip k _ a next hk hip h1 h2]
    simp only [dpiObservations, h0, List.cons_append, List.nil_append]
  · intro name mac other s next hn hm
    rw [interfacesCollectStat_cons name _ s next hn hm]
    simp only [h0]
  · intro name mac other s next hn hm
    rw [interfacesCollectStat_cons name _ s next hn hm]
    simp only [h0]

/-- Witness for C10: the string `abc`, which is short and not a decimal integer, in the
cpu field of a system stat and in the rx_bytes field of an interface. -/
theorem collect_syntax_error_records_zero_witness :
    ((Atoi (ascii "abc")).2 = some .errSyntax ∨
      ((ascii "abc").length < 19 ∧ decimalValue (ascii "abc") = none)) ∧
    Atoi (ascii "abc") = (0, some .errSyntax) ∧
    systemCollectStat ⟨ascii "abc", ascii "12", ascii "34"⟩ =
      [Effect.set .systemCpuPercent [] 0,
        Effect.set .systemUptimeSeconds [] (float64 (Atoi (ascii "12")).1),
        Effect.set .systemMemoryPercent [] (float64 (Atoi (ascii "34")).1)] ∧
    interfacesCollectStat [(ascii "eth0", ⟨ascii "aa:bb", ⟨ascii "abc", ascii "7"⟩⟩)] [] =
      [Effect.set .interfacesReceivedBytes [ascii "eth0", ascii "aa:bb"] 0,
        Effect.set .interfacesTransmittedBytes [ascii "eth0", ascii "aa:bb"] 7] :=
  ⟨Or.inr (by decide),
    (collect_syntax_error_records_zero (ascii "abc") (Or.inr (by decide))).1,
    (collect_syntax_error_records_zero (ascii "abc") (Or.inr (by decide))).2.1
      (ascii "12") (ascii "34"),
    ((collect_syntax_error_records_zero (ascii "abc") (Or.inr (by decide))).2.2.2.2.2.2.1
      (ascii "eth0") (ascii "aa:bb") (ascii "7") [] [] (by decide) (by decide)).trans
      (by decide)⟩

end Edgemax
